import Mathlib

/-!
Verification of the rmp-serde MessagePack codec core (`src/rmp-serde/src/`):
a shallow embedding of the decoder (`decode.rs`), the `Raw`/`RawRef` envelope
(`lib.rs`) and the configuration composer (`config.rs`), together with
theorems settling the frozen claims about the natural-language specification.

Bytes are modelled as `Nat` (each `< 256` in well-formed inputs), byte buffers
as `List Nat`, machine integers as `Nat`/`Int` with explicit two's-complement
conversion where signedness matters.
-/

namespace RmpSerde

/-- MessagePack one-byte marker (`rmp::Marker`). Modelled from the spec
(wire-format section: marker classes nil, bool, fixint ranges, u/i 8-64,
f32/f64, fixstr/str8/16/32, bin8/16/32, fixarray/array16/32, fixmap/map16/32,
fixext1/2/4/8/16, ext8/16/32, reserved) because the `rmp` crate that declares
it is part of this repository but not under `src/`. -/
inductive Marker where
  | Null
  | True
  | False
  | FixPos (val : Nat)
  | FixNeg (val : Int)
  | U8
  | U16
  | U32
  | U64
  | I8
  | I16
  | I32
  | I64
  | F32
  | F64
  | FixStr (len : Nat)
  | Str8
  | Str16
  | Str32
  | Bin8
  | Bin16
  | Bin32
  | FixArray (len : Nat)
  | Array16
  | Array32
  | FixMap (len : Nat)
  | Map16
  | Map32
  | FixExt1
  | FixExt2
  | FixExt4
  | FixExt8
  | FixExt16
  | Ext8
  | Ext16
  | Ext32
  | Reserved
deriving DecidableEq

/-- `Marker::from_u8`: classify a marker byte. Modelled from the spec's wire
format table (fixpos `00-7f`, fixmap `80-8f`, fixarray `90-9f`, fixstr
`a0-bf`, `c0` nil, `c1` reserved, `c2`/`c3` bool, `c4-c6` bin, `c7-c9` ext,
`ca`/`cb` float, `cc-cf` uint, `d0-d3` int, `d4-d8` fixext, `d9-db` str,
`dc`/`dd` array, `de`/`df` map, `e0-ff` fixneg). -/
def markerFromU8 (b : Nat) : Marker :=
  if b ≤ 0x7f then .FixPos b
  else if b ≤ 0x8f then .FixMap (b - 0x80)
  else if b ≤ 0x9f then .FixArray (b - 0x90)
  else if b ≤ 0xbf then .FixStr (b - 0xa0)
  else if b = 0xc0 then .Null
  else if b = 0xc1 then .Reserved
  else if b = 0xc2 then .False
  else if b = 0xc3 then .True
  else if b = 0xc4 then .Bin8
  else if b = 0xc5 then .Bin16
  else if b = 0xc6 then .Bin32
  else if b = 0xc7 then .Ext8
  else if b = 0xc8 then .Ext16
  else if b = 0xc9 then .Ext32
  else if b = 0xca then .F32
  else if b = 0xcb then .F64
  else if b = 0xcc then .U8
  else if b = 0xcd then .U16
  else if b = 0xce then .U32
  else if b = 0xcf then .U64
  else if b = 0xd0 then .I8
  else if b = 0xd1 then .I16
  else if b = 0xd2 then .I32
  else if b = 0xd3 then .I64
  else if b = 0xd4 then .FixExt1
  else if b = 0xd5 then .FixExt2
  else if b = 0xd6 then .FixExt4
  else if b = 0xd7 then .FixExt8
  else if b = 0xd8 then .FixExt16
  else if b = 0xd9 then .Str8
  else if b = 0xda then .Str16
  else if b = 0xdb then .Str32
  else if b = 0xdc then .Array16
  else if b = 0xdd then .Array32
  else if b = 0xde then .Map16
  else if b = 0xdf then .Map32
  else .FixNeg ((b : Int) - 256)

/-- `rmp::decode::bytes::BytesReadError` (re-exported at decode.rs:1067):
the error of the borrowed-slice reader. -/
inductive BytesReadError where
  | InsufficientBytes (expected actual position : Nat)
deriving DecidableEq

/-- `rmp::decode::ValueReadError` (external declaration used by decode.rs). -/
inductive ValueReadError where
  | InvalidMarkerRead (e : BytesReadError)
  | InvalidDataRead (e : BytesReadError)
  | TypeMismatch (m : Marker)
deriving DecidableEq

/-- `core::str::Utf8Error`: first invalid byte index plus the length of the
invalid sequence (`none` when the input ended in an incomplete sequence). -/
structure Utf8ErrorS where
  valid_up_to : Nat
  error_len : Option Nat
deriving DecidableEq

/-- `rmp_serde::decode::Error` (decode.rs:28-50). `Syntax` is named
`SyntaxMsg` here. -/
inductive Error where
  | InvalidValueRead (e : ValueReadError)
  | TypeMismatch (m : Marker)
  | OutOfRange
  | LengthMismatch (n : Nat)
  | Uncategorized (s : String)
  | SyntaxMsg (s : String)
  | Utf8Error (e : Utf8ErrorS)
  | DepthLimitExceeded
deriving DecidableEq

/-- `From<MarkerReadError> for Error` (decode.rs:126-133). -/
def fromMarkerErr (e : BytesReadError) : Error :=
  .InvalidValueRead (.InvalidMarkerRead e)

/-- The `ValueReadError::InvalidDataRead` conversion used by the data-reading
helpers (decode.rs:359-380). -/
def fromDataErr (e : BytesReadError) : Error :=
  .InvalidValueRead (.InvalidDataRead e)

/-- `Reference<'de, 'a, [u8]>` (decode.rs:896-902). -/
inductive Reference where
  | Borrowed (b : List Nat)
  | Copied (b : List Nat)
deriving DecidableEq

/-- The bytes held by a `Reference` (used where decode.rs matches both arms
identically, e.g. read_128 lines 350-353). -/
def Reference.bytes : Reference → List Nat
  | .Borrowed b => b
  | .Copied b => b

/-- `ReadRefReader::read_exact_buf` (decode.rs:980-988): check remaining
length first, fail with `InsufficientBytes { expected, actual, position: 0 }`
without consuming, else split off the requested bytes. -/
def read_exact_buf (n : Nat) (buf : List Nat) :
    Except BytesReadError (List Nat × List Nat) :=
  if buf.length < n then .error (.InsufficientBytes n buf.length 0)
  else .ok (buf.take n, buf.drop n)

/-- `ReadRefReader::read_slice` (decode.rs:992-1000): same check, returning a
`Borrowed` reference into the input. -/
def read_slice (len : Nat) (buf : List Nat) :
    Except BytesReadError (Reference × List Nat) :=
  if buf.length < len then .error (.InsufficientBytes len buf.length 0)
  else .ok (.Borrowed (buf.take len), buf.drop len)

/-! ## C10: atomicity of the borrowed-slice reader -/

/-- C10: for `ReadRefReader`, `read_slice(len)` and `read_exact_buf` fail with
`InsufficientBytes{expected, actual, position}` when fewer than the requested
bytes remain, without consuming input: the cursor is unchanged so a subsequent
smaller read succeeds on the very same bytes; and the reported `position` is
always `0`. -/
theorem c10_read_ref_reader_atomic (buf : List Nat) (n k : Nat)
    (hn : buf.length < n) (hk : k ≤ buf.length) :
    read_slice n buf = .error (.InsufficientBytes n buf.length 0) ∧
    read_exact_buf n buf = .error (.InsufficientBytes n buf.length 0) ∧
    read_slice k buf = .ok (.Borrowed (buf.take k), buf.drop k) ∧
    read_exact_buf k buf = .ok (buf.take k, buf.drop k) := by
  refine ⟨?_, ?_, ?_, ?_⟩ <;> simp [read_slice, read_exact_buf, hn]
  · omega
  · omega

/-- Witness for C10, mirroring `test_as_ref_reader` (decode.rs:1003-1012):
after reading 1 and 6 bytes of an 11-byte buffer, a 5-byte read fails with
position 0 and the following 4-byte read still succeeds on the same bytes. -/
theorem c10_read_ref_reader_atomic_witness :
    read_slice 5 [7, 8, 9, 10] = .error (.InsufficientBytes 5 4 0) ∧
    read_exact_buf 5 [7, 8, 9, 10] = .error (.InsufficientBytes 5 4 0) ∧
    read_slice 4 [7, 8, 9, 10] = .ok (.Borrowed [7, 8, 9, 10], []) ∧
    read_exact_buf 4 [7, 8, 9, 10] = .ok ([7, 8, 9, 10], []) := by
  have h := c10_read_ref_reader_atomic [7, 8, 9, 10] 5 4
    (by decide) (by decide)
  simpa using h

end RmpSerde

namespace RmpSerde

/-! ## C1: the `Raw` / `RawRef` envelope (lib.rs) -/

instance {ε α : Type} [DecidableEq ε] [DecidableEq α] : DecidableEq (Except ε α)
  | .ok x, .ok y =>
    if h : x = y then isTrue (by rw [h])
    else isFalse (by intro hc; cases hc; exact h rfl)
  | .ok _, .error _ => isFalse (by intro hc; cases hc)
  | .error _, .ok _ => isFalse (by intro hc; cases hc)
  | .error e, .error f =>
    if h : e = f then isTrue (by rw [h])
    else isFalse (by intro hc; cases hc; exact h rfl)

/-- `Raw<'a>` (lib.rs:102-111): `Borrowed`/`Owned`, each holding
`Result<str, (bytes, Utf8Error)>`; string contents are modelled as their
bytes. -/
inductive RawS where
  | Borrowed (s : Except (List Nat × Utf8ErrorS) (List Nat))
  | Owned (s : Except (List Nat × Utf8ErrorS) (List Nat))
deriving DecidableEq

/-- `Raw::as_str` (lib.rs:159-166). -/
def RawS.as_str : RawS → Option (List Nat)
  | .Borrowed (.ok s) => some s
  | .Owned (.ok s) => some s
  | _ => none

/-- `Raw::is_str` (lib.rs:147-149). -/
def RawS.is_str (r : RawS) : Bool :=
  r.as_str.isSome

/-- `Raw::is_err` (lib.rs:153-155). -/
def RawS.is_err (r : RawS) : Bool :=
  r.as_str.isNone

/-- `Raw::as_bytes` (lib.rs:182-192). -/
def RawS.as_bytes : RawS → List Nat
  | .Borrowed (.error e) => e.1
  | .Borrowed (.ok s) => s
  | .Owned (.error e) => e.1
  | .Owned (.ok s) => s

/-- The serializer method a `Serialize` impl invokes for its content. -/
inductive SerCall where
  | serialize_str (s : List Nat)
  | serialize_bytes (b : List Nat)
deriving DecidableEq

/-- `impl Serialize for Raw` (lib.rs:218-229): `serialize_str` on `as_str()`
success, otherwise `serialize_bytes(as_bytes())`. -/
def RawS.serialize (r : RawS) : SerCall :=
  match r.as_str with
  | some s => .serialize_str s
  | none => .serialize_bytes r.as_bytes

/-- `RawRef<'a>` (lib.rs:316-320). -/
structure RawRefS where
  s : Except (List Nat × Utf8ErrorS) (List Nat)
deriving DecidableEq

/-- `RawRef::is_str` (lib.rs:343-345). -/
def RawRefS.is_str (r : RawRefS) : Bool :=
  match r.s with
  | .ok _ => true
  | .error _ => false

/-- `RawRef::is_err` (lib.rs:349-351). -/
def RawRefS.is_err (r : RawRefS) : Bool :=
  match r.s with
  | .ok _ => false
  | .error _ => true

/-- `impl Serialize for RawRef` (lib.rs:382-392). -/
def RawRefS.serialize (r : RawRefS) : SerCall :=
  match r.s with
  | .ok s => .serialize_str s
  | .error e => .serialize_bytes e.1

/-- The two marker families relevant to C1. -/
inductive MarkerFamily where
  | StrFamily
  | BinFamily
deriving DecidableEq

/-- Modelled from the spec: the encoder (`encode.rs`, part of this repository
but not under `src/`) frames `serialize_str` content with a MessagePack
string marker (fixstr/str8/16/32) and `serialize_bytes` content with a bin
marker ("Bytes: emit bin-length header, then raw bytes"). -/
def SerCall.markerFamily : SerCall → MarkerFamily
  | .serialize_str _ => .StrFamily
  | .serialize_bytes _ => .BinFamily

/-- Counterexample to C1: a `Raw` (and a `RawRef`) holding the invalid-UTF-8
byte variant is serialized via `serialize_bytes`, i.e. framed as MessagePack
bytes, not as a string. -/
theorem c1_raw_always_string_counterexample :
    (RawS.serialize (.Borrowed (.error ([0xff], ⟨0, some 1⟩)))).markerFamily
      = .BinFamily ∧
    (RawRefS.serialize ⟨.error ([0xff], ⟨0, some 1⟩)⟩).markerFamily
      = .BinFamily ∧
    MarkerFamily.BinFamily ≠ MarkerFamily.StrFamily := by
  refine ⟨rfl, rfl, by decide⟩

/-- C1 (amended): a `Raw` or `RawRef` value serializes as a MessagePack
string marker exactly when its content is the valid-UTF-8 variant
(`is_str`), and as a bytes marker exactly when it holds the invalid-UTF-8
byte variant (`is_err`). -/
theorem c1_raw_string_iff_valid_utf8 (r : RawS) (rr : RawRefS) :
    (r.serialize.markerFamily = .StrFamily ↔ r.is_str = true) ∧
    (r.serialize.markerFamily = .BinFamily ↔ r.is_err = true) ∧
    (rr.serialize.markerFamily = .StrFamily ↔ rr.is_str = true) ∧
    (rr.serialize.markerFamily = .BinFamily ↔ rr.is_err = true) := by
  obtain (s | s) | (s | s) := r <;> obtain (s' | s') := rr <;>
    simp [RawS.serialize, RawS.as_str, RawS.as_bytes, RawS.is_str,
      RawS.is_err, RawRefS.serialize, RawRefS.is_str, RawRefS.is_err,
      SerCall.markerFamily]

end RmpSerde

namespace RmpSerde

/-! ## C8: configuration composition (config.rs) -/

/-- The closed family of serializer configurations (config.rs): the sealed
trait's implementors, as a cons list of wrappers around `DefaultConfig`. -/
inductive Config where
  | DefaultConfig
  | StructMapConfig (inner : Config)
  | StructTupleConfig (inner : Config)
  | HumanReadableConfig (inner : Config)
  | BinaryConfig (inner : Config)
deriving DecidableEq

/-- A write the configuration performs on the underlying serializer: an
array-length header (`encode::write_array_len`), a map-length header
(`encode::write_map_len`), a string (`encode::write_str` /
`serialize_str`). -/
inductive WriteEvent where
  | ArrayLen (n : Nat)
  | MapLen (n : Nat)
  | Str (s : String)
deriving DecidableEq

/-- `SerializerConfig::is_human_readable` for each config
(config.rs:101-104, 162-165, 218-221, 273-276, 328-331). -/
def Config.is_human_readable : Config → Bool
  | .DefaultConfig => false
  | .StructMapConfig c => c.is_human_readable
  | .StructTupleConfig c => c.is_human_readable
  | .HumanReadableConfig _ => true
  | .BinaryConfig _ => false

/-- `SerializerConfig::write_struct_len` for each config (config.rs:68-76,
129-137, 185-193, 241-248, 296-303): the header event written. -/
def Config.write_struct_len : Config → Nat → WriteEvent
  | .DefaultConfig, n => .ArrayLen n
  | .StructMapConfig _, n => .MapLen n
  | .StructTupleConfig _, n => .ArrayLen n
  | .HumanReadableConfig c, n => c.write_struct_len n
  | .BinaryConfig c, n => c.write_struct_len n

/-- `SerializerConfig::write_struct_field` (config.rs:78-86, 139-147,
195-203, 250-258, 305-313): the field's serialized form is opaque (`value`);
`StructMapConfig` prepends the key string. -/
def Config.write_struct_field :
    Config → String → List WriteEvent → List WriteEvent
  | .DefaultConfig, _key, value => value
  | .StructMapConfig _, key, value => .Str key :: value
  | .StructTupleConfig _, _key, value => value
  | .HumanReadableConfig c, key, value => c.write_struct_field key value
  | .BinaryConfig c, key, value => c.write_struct_field key value

/-- `SerializerConfig::write_variant_ident` (config.rs:88-99, 149-160,
205-216, 260-271, 315-326): `DefaultConfig` serializes the variant *name* as
a string; every wrapper delegates. -/
def Config.write_variant_ident : Config → Nat → String → WriteEvent
  | .DefaultConfig, _idx, name => .Str name
  | .StructMapConfig c, idx, name => c.write_variant_ident idx name
  | .StructTupleConfig c, idx, name => c.write_variant_ident idx name
  | .HumanReadableConfig c, idx, name => c.write_variant_ident idx name
  | .BinaryConfig c, idx, name => c.write_variant_ident idx name

/-- C8: each wrapper determines only its own aspect and delegates every other
aspect inward; `DefaultConfig` writes array framing and the variant name and
is not human-readable; wrapping the same aspect twice uses the outermost
setting. -/
theorem c8_config_composition (c : Config) (n idx : Nat) (key name : String)
    (value : List WriteEvent) :
    (Config.HumanReadableConfig c).is_human_readable = true ∧
    (Config.BinaryConfig c).is_human_readable = false ∧
    (Config.StructMapConfig c).write_struct_len n = .MapLen n ∧
    (Config.StructTupleConfig c).write_struct_len n = .ArrayLen n ∧
    Config.DefaultConfig.write_struct_len n = .ArrayLen n ∧
    (Config.StructMapConfig c).write_variant_ident idx name
      = c.write_variant_ident idx name ∧
    (Config.StructTupleConfig c).write_variant_ident idx name
      = c.write_variant_ident idx name ∧
    (Config.StructMapConfig c).is_human_readable = c.is_human_readable ∧
    (Config.StructTupleConfig c).is_human_readable = c.is_human_readable ∧
    (Config.HumanReadableConfig c).write_struct_len n = c.write_struct_len n ∧
    (Config.BinaryConfig c).write_struct_len n = c.write_struct_len n ∧
    (Config.HumanReadableConfig c).write_struct_field key value
      = c.write_struct_field key value ∧
    (Config.BinaryConfig c).write_struct_field key value
      = c.write_struct_field key value ∧
    (Config.HumanReadableConfig c).write_variant_ident idx name
      = c.write_variant_ident idx name ∧
    (Config.BinaryConfig c).write_variant_ident idx name
      = c.write_variant_ident idx name ∧
    Config.DefaultConfig.write_variant_ident idx name = .Str name ∧
    Config.DefaultConfig.is_human_readable = false ∧
    (Config.HumanReadableConfig (Config.BinaryConfig c)).is_human_readable
      = true ∧
    (Config.BinaryConfig (Config.HumanReadableConfig c)).is_human_readable
      = false ∧
    (Config.StructMapConfig (Config.StructTupleConfig c)).write_struct_len n
      = .MapLen n ∧
    (Config.StructTupleConfig (Config.StructMapConfig c)).write_struct_len n
      = .ArrayLen n := by
  repeat first
  | exact ⟨rfl, ?_⟩
  | exact rfl
  | constructor

end RmpSerde

namespace RmpSerde

/-! ## Decoder state and primitive reads (decode.rs) -/

/-- The mutable part of `Deserializer<ReadRefReader, _>` used while decoding
(decode.rs:180-186): the borrowed-slice reader's remaining bytes and the
one-slot cached marker. The remaining-depth counter is passed explicitly to
the decoding functions (see `deserialize_any`). -/
structure DState where
  rd : List Nat
  marker : Option Marker
deriving DecidableEq

/-- `rmp::decode::read_marker` on `ReadRefReader`: read one byte, classify
it. Modelled from the spec ("Marker: the one-byte type tag that begins every
MessagePack value"); the error wraps the reader's short-read error. -/
def read_marker (st : DState) : Except BytesReadError (Marker × DState) :=
  match st.rd with
  | [] => .error (.InsufficientBytes 1 0 0)
  | b :: rest => .ok (markerFromU8 b, { st with rd := rest })

/-- `Deserializer::take_or_read_marker` (decode.rs:189-194): consume the
cached marker if present, else read one from the input. -/
def take_or_read_marker (st : DState) : Except BytesReadError (Marker × DState) :=
  match st.marker with
  | some m => .ok (m, { st with marker := none })
  | none => read_marker st

/-- `Deserializer::peek_or_read_marker` (decode.rs:196-204): return the
cached marker if present, else read one and store it in the cache. -/
def peek_or_read_marker (st : DState) : Except BytesReadError (Marker × DState) :=
  match st.marker with
  | some m => .ok (m, st)
  | none =>
    match read_marker st with
    | .error e => .error e
    | .ok (m, st') => .ok (m, { st' with marker := some m })

/-- Big-endian read of `n` bytes via `read_exact_buf`, as in read_u16 /
read_u32 (decode.rs:368-380) and the `RmpRead::read_data_*` payload readers
of `rmp` (big-endian per the spec's wire-format section). -/
def read_be (n : Nat) (st : DState) : Except Error (Nat × DState) :=
  match read_exact_buf n st.rd with
  | .error e => .error (fromDataErr e)
  | .ok (bs, rest) => .ok (bs.foldl (fun a b => a * 256 + b) 0, { st with rd := rest })

/-- read_u8 (decode.rs:363-366). -/
def read_u8 (st : DState) : Except Error (Nat × DState) :=
  read_be 1 st

/-- read_u16 (decode.rs:368-373). -/
def read_u16 (st : DState) : Except Error (Nat × DState) :=
  read_be 2 st

/-- read_u32 (decode.rs:375-380). -/
def read_u32 (st : DState) : Except Error (Nat × DState) :=
  read_be 4 st

/-- Two's-complement reinterpretation of an unsigned `nbytes`-byte value. -/
def toSigned (nbytes v : Nat) : Int :=
  if v < 2 ^ (8 * nbytes - 1) then (v : Int) else (v : Int) - 2 ^ (8 * nbytes)

/-- `RmpRead::read_data_i8` / `read_data_i16` / ... of `rmp`, modelled as
big-endian two's complement (spec: integer markers distinguish sign and
width; all multi-byte integers big-endian). -/
def read_data_i (nbytes : Nat) (st : DState) : Except Error (Int × DState) :=
  match read_be nbytes st with
  | .error e => .error e
  | .ok (v, st') => .ok (toSigned nbytes v, st')

/-- read_bin_data (decode.rs:359-361): `read_slice` with the error wrapped in
`InvalidDataRead`. -/
def read_bin_data (len : Nat) (st : DState) : Except Error (Reference × DState) :=
  match read_slice len st.rd with
  | .error e => .error (fromDataErr e)
  | .ok (r, rest) => .ok (r, { st with rd := rest })

/-- ext_len (decode.rs:382-394). -/
def ext_len (m : Marker) (st : DState) : Except Error (Nat × DState) :=
  match m with
  | .FixExt1 => .ok (1, st)
  | .FixExt2 => .ok (2, st)
  | .FixExt4 => .ok (4, st)
  | .FixExt8 => .ok (8, st)
  | .FixExt16 => .ok (16, st)
  | .Ext8 => read_u8 st
  | .Ext16 => read_u16 st
  | .Ext32 => read_u32 st
  | _ => .error (.TypeMismatch m)

/-! ## UTF-8 validation (`core::str::from_utf8`, the external contract used by
read_str_data) -/

/-- One step classification of `core::str::from_utf8` starting at absolute
index `idx`: `none` means the remaining bytes are valid UTF-8; otherwise the
returned `Utf8ErrorS` carries the index of the first invalid sequence and its
length (`none` when the input ends inside an incomplete sequence). -/
def utf8_validate_go (idx : Nat) : List Nat → Option Utf8ErrorS
  | [] => none
  | b :: rest =>
    if b < 0x80 then utf8_validate_go (idx + 1) rest
    else if b < 0xc2 then some ⟨idx, some 1⟩
    else if b < 0xe0 then
      match rest with
      | [] => some ⟨idx, none⟩
      | b1 :: rest1 =>
        if 0x80 ≤ b1 ∧ b1 < 0xc0 then utf8_validate_go (idx + 2) rest1
        else some ⟨idx, some 1⟩
    else if b < 0xf0 then
      match rest with
      | [] => some ⟨idx, none⟩
      | b1 :: rest1 =>
        if (if b = 0xe0 then 0xa0 ≤ b1 ∧ b1 < 0xc0
            else if b = 0xed then 0x80 ≤ b1 ∧ b1 < 0xa0
            else 0x80 ≤ b1 ∧ b1 < 0xc0) then
          match rest1 with
          | [] => some ⟨idx, none⟩
          | b2 :: rest2 =>
            if 0x80 ≤ b2 ∧ b2 < 0xc0 then utf8_validate_go (idx + 3) rest2
            else some ⟨idx, some 2⟩
        else some ⟨idx, some 1⟩
    else if b < 0xf5 then
      match rest with
      | [] => some ⟨idx, none⟩
      | b1 :: rest1 =>
        if (if b = 0xf0 then 0x90 ≤ b1 ∧ b1 < 0xc0
            else if b = 0xf4 then 0x80 ≤ b1 ∧ b1 < 0x90
            else 0x80 ≤ b1 ∧ b1 < 0xc0) then
          match rest1 with
          | [] => some ⟨idx, none⟩
          | b2 :: rest2 =>
            if 0x80 ≤ b2 ∧ b2 < 0xc0 then
              match rest2 with
              | [] => some ⟨idx, none⟩
              | b3 :: rest3 =>
                if 0x80 ≤ b3 ∧ b3 < 0xc0 then utf8_validate_go (idx + 4) rest3
                else some ⟨idx, some 3⟩
            else some ⟨idx, some 2⟩
        else some ⟨idx, some 1⟩
    else some ⟨idx, some 1⟩

/-- `core::str::from_utf8` validation outcome for a byte buffer. -/
def utf8_validate (buf : List Nat) : Option Utf8ErrorS :=
  utf8_validate_go 0 buf

/-! ## read_str_data with a general serde visitor (decode.rs:306-335) -/

/-- The four visitor callbacks `read_str_data` can invoke, for an arbitrary
serde visitor producing `α`. A valid-UTF-8 `str` is passed as its bytes. -/
structure StrVisitor (α : Type) where
  visit_borrowed_str : List Nat → Except Error α
  visit_str : List Nat → Except Error α
  visit_borrowed_bytes : List Nat → Except Error α
  visit_bytes : List Nat → Except Error α

/-- The body of read_str_data (decode.rs:309-334) after `read_bin_data`
produced a `Reference`: on valid UTF-8 call `visit_(borrowed_)str`; otherwise
try `visit_(borrowed_)bytes` and, if the visitor also fails, surface
`Utf8Error` with the original UTF-8 error (discarding the visitor's). -/
def read_str_data_ref {α : Type} (r : Reference) (vis : StrVisitor α) :
    Except Error α :=
  match r with
  | .Borrowed buf =>
    match utf8_validate buf with
    | none => vis.visit_borrowed_str buf
    | some err =>
      match vis.visit_borrowed_bytes buf with
      | .ok v => .ok v
      | .error _ => .error (.Utf8Error err)
  | .Copied buf =>
    match utf8_validate buf with
    | none => vis.visit_str buf
    | some err =>
      match vis.visit_bytes buf with
      | .ok v => .ok v
      | .error _ => .error (.Utf8Error err)

/-- read_str_data (decode.rs:306-335): read `len` payload bytes, then branch
on the `Reference` and UTF-8 validity. -/
def read_str_data {α : Type} (len : Nat) (vis : StrVisitor α) (st : DState) :
    Except Error (α × DState) :=
  match read_bin_data len st with
  | .error e => .error e
  | .ok (r, st') =>
    match read_str_data_ref r vis with
    | .error e => .error e
    | .ok v => .ok (v, st')

/-! ## The canonical value-building visitor and `deserialize_any` -/

/-- The MessagePack data model value produced by the canonical
(`rmpv::Value`-style) visitor: every scalar visit constructs a leaf, strings
and byte arrays keep their bytes, floats keep their raw big-endian bit
pattern, containers collect their decoded children, and the ext escape hatch
keeps its tag and payload. -/
inductive Value where
  | unitV
  | boolV (b : Bool)
  | uintV (n : Nat)
  | intV (z : Int)
  | f32V (bits : Nat)
  | f64V (bits : Nat)
  | strV (bytes : List Nat)
  | binV (bytes : List Nat)
  | extV (tag : Int) (payload : List Nat)
  | arrayV (vs : List Value)
  | mapV (kvs : List (Value × Value))

/-- The canonical visitor's string callbacks: accept valid UTF-8 as `strV`
and fall back to `binV` for invalid UTF-8 bytes (all four callbacks
succeed). -/
def valueStrVisitor : StrVisitor Value where
  visit_borrowed_str := fun b => .ok (.strV b)
  visit_str := fun b => .ok (.strV b)
  visit_borrowed_bytes := fun b => .ok (.binV b)
  visit_bytes := fun b => .ok (.binV b)

/-- The canonical visitor's `visit_seq` driving loop over
`SeqAccess::next_element_seed` (decode.rs:713-722): it keeps requesting
elements until the access returns `None`, i.e. it performs exactly `left`
successful element decodes, each via `f` (the parent decoder). -/
def seqElemsGo (f : DState → Except Error (Value × DState)) :
    Nat → DState → Except Error (List Value × DState)
  | 0, st => .ok ([], st)
  | left + 1, st =>
    match f st with
    | .error e => .error e
    | .ok (v, st') =>
      match seqElemsGo f left st' with
      | .error e => .error e
      | .ok (vs, st'') => .ok (v :: vs, st'')

/-- The canonical visitor's `visit_map` driving loop over
`MapAccess::next_key_seed` / `next_value_seed` (decode.rs:748-764): `left`
key/value pairs, each component decoded via `f`. -/
def mapElemsGo (f : DState → Except Error (Value × DState)) :
    Nat → DState → Except Error (List (Value × Value) × DState)
  | 0, st => .ok ([], st)
  | left + 1, st =>
    match f st with
    | .error e => .error e
    | .ok (k, st') =>
      match f st' with
      | .error e => .error e
      | .ok (v, st'') =>
        match mapElemsGo f left st'' with
        | .error e => .error e
        | .ok (kvs, st3) => .ok ((k, v) :: kvs, st3)

/-- `deserialize_any` (decode.rs:496-590) instantiated at the canonical
value-building visitor, with the remaining-depth counter `d` passed
explicitly. The `depth_count!` macro (decode.rs:52-64) decrements the
counter, fails with `DepthLimitExceeded` when it reaches zero, runs the
descent at the decremented value and restores the counter on return; here
the descent receives `d - 1` and the caller simply continues with its own
`d`, which is the same discipline. (At `d = 0` Rust's unsigned decrement
cannot happen on any reachable path with a positive configured depth; the
model fails with `DepthLimitExceeded` there as well.)

The string branches compute the length exactly as decode.rs:517-525 and
defer to `read_str_data`; array/map branches build a `SeqAccess`/`MapAccess`
of the declared length and let the canonical visitor consume every element,
so the `seq.left == 0` check at decode.rs:540-543/559-562 passes; the ext
branch is `visit_newtype_struct(ExtDeserializer)` (decode.rs:577-587) whose
canonical drive reads the `i8` tag and then the `len` payload bytes
(decode.rs:456-485); the reserved marker fails (decode.rs:588). -/
def deserialize_any : Nat → DState → Except Error (Value × DState)
  | d, st =>
    match take_or_read_marker st with
    | .error e => .error (fromMarkerErr e)
    | .ok (marker, st1) =>
      match marker with
      | .Null => .ok (.unitV, st1)
      | .True => .ok (.boolV true, st1)
      | .False => .ok (.boolV false, st1)
      | .FixPos v => .ok (.uintV v, st1)
      | .FixNeg v => .ok (.intV v, st1)
      | .U8 =>
        match read_be 1 st1 with
        | .error e => .error e
        | .ok (n, st2) => .ok (.uintV n, st2)
      | .U16 =>
        match read_be 2 st1 with
        | .error e => .error e
        | .ok (n, st2) => .ok (.uintV n, st2)
      | .U32 =>
        match read_be 4 st1 with
        | .error e => .error e
        | .ok (n, st2) => .ok (.uintV n, st2)
      | .U64 =>
        match read_be 8 st1 with
        | .error e => .error e
        | .ok (n, st2) => .ok (.uintV n, st2)
      | .I8 =>
        match read_data_i 1 st1 with
        | .error e => .error e
        | .ok (z, st2) => .ok (.intV z, st2)
      | .I16 =>
        match read_data_i 2 st1 with
        | .error e => .error e
        | .ok (z, st2) => .ok (.intV z, st2)
      | .I32 =>
        match read_data_i 4 st1 with
        | .error e => .error e
        | .ok (z, st2) => .ok (.intV z, st2)
      | .I64 =>
        match read_data_i 8 st1 with
        | .error e => .error e
        | .ok (z, st2) => .ok (.intV z, st2)
      | .F32 =>
        match read_be 4 st1 with
        | .error e => .error e
        | .ok (n, st2) => .ok (.f32V n, st2)
      | .F64 =>
        match read_be 8 st1 with
        | .error e => .error e
        | .ok (n, st2) => .ok (.f64V n, st2)
      | .FixStr len => read_str_data len valueStrVisitor st1
      | .Str8 =>
        match read_u8 st1 with
        | .error e => .error e
        | .ok (len, st2) => read_str_data len valueStrVisitor st2
      | .Str16 =>
        match read_u16 st1 with
        | .error e => .error e
        | .ok (len, st2) => read_str_data len valueStrVisitor st2
      | .Str32 =>
        match read_u32 st1 with
        | .error e => .error e
        | .ok (len, st2) => read_str_data len valueStrVisitor st2
      | .FixArray len =>
        match d with
        | 0 => .error .DepthLimitExceeded
        | d' + 1 =>
          if d' = 0 then .error .DepthLimitExceeded
          else
            match seqElemsGo (deserialize_any d') len st1 with
            | .error e => .error e
            | .ok (vs, st2) => .ok (.arrayV vs, st2)
      | .Array16 =>
        match read_u16 st1 with
        | .error e => .error e
        | .ok (len, st2) =>
          match d with
          | 0 => .error .DepthLimitExceeded
          | d' + 1 =>
            if d' = 0 then .error .DepthLimitExceeded
            else
              match seqElemsGo (deserialize_any d') len st2 with
              | .error e => .error e
              | .ok (vs, st3) => .ok (.arrayV vs, st3)
      | .Array32 =>
        match read_u32 st1 with
        | .error e => .error e
        | .ok (len, st2) =>
          match d with
          | 0 => .error .DepthLimitExceeded
          | d' + 1 =>
            if d' = 0 then .error .DepthLimitExceeded
            else
              match seqElemsGo (deserialize_any d') len st2 with
              | .error e => .error e
              | .ok (vs, st3) => .ok (.arrayV vs, st3)
      | .FixMap len =>
        match d with
        | 0 => .error .DepthLimitExceeded
        | d' + 1 =>
          if d' = 0 then .error .DepthLimitExceeded
          else
            match mapElemsGo (deserialize_any d') len st1 with
            | .error e => .error e
            | .ok (kvs, st2) => .ok (.mapV kvs, st2)
      | .Map16 =>
        match read_u16 st1 with
        | .error e => .error e
        | .ok (len, st2) =>
          match d with
          | 0 => .error .DepthLimitExceeded
          | d' + 1 =>
            if d' = 0 then .error .DepthLimitExceeded
            else
              match mapElemsGo (deserialize_any d') len st2 with
              | .error e => .error e
              | .ok (kvs, st3) => .ok (.mapV kvs, st3)
      | .Map32 =>
        match read_u32 st1 with
        | .error e => .error e
        | .ok (len, st2) =>
          match d with
          | 0 => .error .DepthLimitExceeded
          | d' + 1 =>
            if d' = 0 then .error .DepthLimitExceeded
            else
              match mapElemsGo (deserialize_any d') len st2 with
              | .error e => .error e
              | .ok (kvs, st3) => .ok (.mapV kvs, st3)
      | .Bin8 =>
        match read_u8 st1 with
        | .error e => .error e
        | .ok (len, st2) =>
          match read_bin_data len st2 with
          | .error e => .error e
          | .ok (.Borrowed buf, st3) => .ok (.binV buf, st3)
          | .ok (.Copied buf, st3) => .ok (.binV buf, st3)
      | .Bin16 =>
        match read_u16 st1 with
        | .error e => .error e
        | .ok (len, st2) =>
          match read_bin_data len st2 with
          | .error e => .error e
          | .ok (.Borrowed buf, st3) => .ok (.binV buf, st3)
          | .ok (.Copied buf, st3) => .ok (.binV buf, st3)
      | .Bin32 =>
        match read_u32 st1 with
        | .error e => .error e
        | .ok (len, st2) =>
          match read_bin_data len st2 with
          | .error e => .error e
          | .ok (.Borrowed buf, st3) => .ok (.binV buf, st3)
          | .ok (.Copied buf, st3) => .ok (.binV buf, st3)
      | .FixExt1 | .FixExt2 | .FixExt4 | .FixExt8 | .FixExt16
      | .Ext8 | .Ext16 | .Ext32 =>
        match ext_len marker st1 with
        | .error e => .error e
        | .ok (len, st2) =>
          match d with
          | 0 => .error .DepthLimitExceeded
          | d' + 1 =>
            if d' = 0 then .error .DepthLimitExceeded
            else
              match read_data_i 1 st2 with
              | .error e => .error e
              | .ok (tag, st3) =>
                match read_bin_data len st3 with
                | .error e => .error e
                | .ok (r, st4) => .ok (.extV tag r.bytes, st4)
      | .Reserved => .error (.TypeMismatch .Reserved)

mutual

/-- The nesting depth of a decoded value: how many `depth_count!` descents
(array, map, ext) the decoder performs on its innermost path. -/
def containerDepth : Value → Nat
  | .arrayV vs => 1 + containerDepthList vs
  | .mapV kvs => 1 + containerDepthPairs kvs
  | .extV _ _ => 1
  | _ => 0

/-- Largest `containerDepth` among a list of values. -/
def containerDepthList : List Value → Nat
  | [] => 0
  | v :: vs => max (containerDepth v) (containerDepthList vs)

/-- Largest `containerDepth` among the keys and values of map entries. -/
def containerDepthPairs : List (Value × Value) → Nat
  | [] => 0
  | (k, v) :: kvs =>
    max (max (containerDepth k) (containerDepth v)) (containerDepthPairs kvs)

end

end RmpSerde

namespace RmpSerde

/-! ## Deserializer construction (decode.rs:286-304) -/

/-- `Deserializer<ReadRefReader, DefaultConfig>` as constructed by
`from_bytes`: reader bytes, cached marker, remaining-depth counter. -/
structure Deserializer where
  rd : List Nat
  marker : Option Marker
  depth : Nat
deriving DecidableEq

/-- `Deserializer::from_bytes` (decode.rs:286-297): empty marker cache,
depth counter 1024. -/
def Deserializer.from_bytes (bytes : List Nat) : Deserializer :=
  ⟨bytes, none, 1024⟩

/-- `Deserializer::set_max_depth` (decode.rs:300-304). -/
def Deserializer.set_max_depth (de : Deserializer) (depth : Nat) : Deserializer :=
  { de with depth := depth }

/-- Run `deserialize_any` on a constructed deserializer. -/
def Deserializer.runAny (de : Deserializer) : Except Error (Value × DState) :=
  deserialize_any de.depth ⟨de.rd, de.marker⟩

/-- The canonical `k`-level nested-array input: `k` times `0x91`
(fixarray of 1) around a `0xc0` (nil). Its container nesting is `k`. -/
def nestedArrayBytes : Nat → List Nat
  | 0 => [0xc0]
  | k + 1 => 0x91 :: nestedArrayBytes k

/-- The value decoded from `nestedArrayBytes k`. -/
def nestedArrayValue : Nat → Value
  | 0 => .unitV
  | k + 1 => .arrayV [nestedArrayValue k]

/-! ## 128-bit integers (decode.rs:337-356, 668-684) -/

/-- read_128 (decode.rs:337-356): take (or read) a marker, require `Bin8`,
read the one-byte length, require 16, read the 16 payload bytes. -/
def read_128 (st : DState) : Except Error (List Nat × DState) :=
  match take_or_read_marker st with
  | .error e => .error (fromMarkerErr e)
  | .ok (marker, st1) =>
    if marker ≠ .Bin8 then .error (.TypeMismatch marker)
    else
      match read_u8 st1 with
      | .error e => .error e
      | .ok (len, st2) =>
        if len ≠ 16 then .error (.LengthMismatch 16)
        else
          match read_bin_data len st2 with
          | .error e => .error e
          | .ok (r, st3) => .ok (r.bytes, st3)

/-- `u128::from_be_bytes`. -/
def u128_from_be (bs : List Nat) : Nat :=
  bs.foldl (fun a b => a * 256 + b) 0

/-- deserialize_u128 (decode.rs:677-684) at the canonical visitor
(`visit_u128` returns the number). -/
def deserialize_u128 (st : DState) : Except Error (Nat × DState) :=
  match read_128 st with
  | .error e => .error e
  | .ok (buf, st') => .ok (u128_from_be buf, st')

/-- deserialize_i128 (decode.rs:668-675) at the canonical visitor:
`i128::from_be_bytes` is big-endian two's complement. -/
def deserialize_i128 (st : DState) : Except Error (Int × DState) :=
  match read_128 st with
  | .error e => .error e
  | .ok (buf, st') => .ok (toSigned 16 (u128_from_be buf), st')

/-! ## deserialize_option (decode.rs:592-617) -/

/-- deserialize_option: take (or read) one marker; `Null` ⇒ `visit_none`;
otherwise stash the marker back into the one-slot cache and `visit_some
(self)`, modelled by running the continuation `inner` (the seed's
deserialize against the same deserializer) on the state with the stashed
marker. -/
def deserialize_option {α : Type}
    (inner : Nat → DState → Except Error (α × DState)) (d : Nat)
    (st : DState) : Except Error (Option α × DState) :=
  match take_or_read_marker st with
  | .error e => .error (fromMarkerErr e)
  | .ok (marker, st1) =>
    if marker = .Null then .ok (none, st1)
    else
      match inner d { st1 with marker := some marker } with
      | .error e => .error e
      | .ok (v, st2) => .ok (some v, st2)

/-! ## deserialize_enum (decode.rs:619-637, 772-893) -/

/-- serde's `de::Error::invalid_type(unexp, &exp)`, which reaches
`Error::custom` and hence `Error::Syntax` with serde's standard message. -/
def invalid_type (unexp exp : String) : Error :=
  .SyntaxMsg ("invalid type: " ++ unexp ++ ", expected " ++ exp)

/-- The payload request a deriving visitor makes through
`de::VariantAccess` after reading the variant identifier. -/
inductive VariantReq where
  | unitVariant
  | newtypeVariant
  | tupleVariant (len : Nat)
  | structVariant (numFields : Nat)
deriving DecidableEq

/-- `rmp::decode::read_nil` used by `VariantAccess::unit_variant`
(decode.rs:868-871). Modelled from the spec ("`unit_variant` consumes a
`nil`"): read a marker directly from the reader (not the cache) and require
`Null`; the `ValueReadError` is wrapped by `From` into
`InvalidValueRead`. -/
def read_nil (st : DState) : Except Error DState :=
  match read_marker st with
  | .error e => .error (fromMarkerErr e)
  | .ok (m, st') =>
    if m = .Null then .ok st'
    else .error (.InvalidValueRead (.TypeMismatch m))

/-- `deserialize_tuple` is in the `forward_to_deserialize_any!` list
(decode.rs:686-691): the length hint is ignored and `deserialize_any`
runs. -/
def deserialize_tuple (_len : Nat) (d : Nat) (st : DState) :
    Except Error (Value × DState) :=
  deserialize_any d st

/-- `visitor.visit_enum(VariantAccess::new(self))` (decode.rs:630, 842-893):
`variant_seed` decodes the identifier via the parent deserializer, then the
requested `VariantAccess` method runs: `unit_variant` consumes a nil,
`newtype_variant` decodes one value, `tuple_variant`/`struct_variant`
delegate to `deserialize_tuple`. -/
def variantAccessRun (req : VariantReq) (d : Nat) (st : DState) :
    Except Error ((Value × Option Value) × DState) :=
  match deserialize_any d st with
  | .error e => .error e
  | .ok (ident, st1) =>
    match req with
    | .unitVariant =>
      match read_nil st1 with
      | .error e => .error e
      | .ok st2 => .ok ((ident, none), st2)
    | .newtypeVariant =>
      match deserialize_any d st1 with
      | .error e => .error e
      | .ok (v, st2) => .ok ((ident, some v), st2)
    | .tupleVariant len =>
      match deserialize_tuple len d st1 with
      | .error e => .error e
      | .ok (v, st2) => .ok ((ident, some v), st2)
    | .structVariant n =>
      match deserialize_tuple n d st1 with
      | .error e => .error e
      | .ok (v, st2) => .ok ((ident, some v), st2)

/-- `visitor.visit_enum(UnitVariantAccess::new(self))` (decode.rs:635,
772-840): `variant_seed` decodes the identifier; `unit_variant` succeeds
with no payload; `newtype_variant`, `tuple_variant` and `struct_variant`
fail with serde's invalid-type error reporting `Unexpected::UnitVariant`. -/
def unitVariantAccessRun (req : VariantReq) (d : Nat) (st : DState) :
    Except Error ((Value × Option Value) × DState) :=
  match deserialize_any d st with
  | .error e => .error e
  | .ok (ident, st1) =>
    match req with
    | .unitVariant => .ok ((ident, none), st1)
    | .newtypeVariant => .error (invalid_type "unit variant" "newtype variant")
    | .tupleVariant _ => .error (invalid_type "unit variant" "tuple variant")
    | .structVariant _ => .error (invalid_type "unit variant" "struct variant")

/-- `rmp::decode::marker_to_len`. Modelled from the spec: a marker "can be
interpreted as a container length" when it is fixmap / map16 / map32 /
fixarray; the fix lengths live in the marker byte, map16/map32 read a
big-endian u16/u32 length from the input; any other marker is refused with
a `TypeMismatch`. -/
def marker_to_len (m : Marker) (st : DState) :
    Except ValueReadError (Nat × DState) :=
  match m with
  | .FixMap n => .ok (n, st)
  | .Map16 =>
    match read_exact_buf 2 st.rd with
    | .error e => .error (.InvalidDataRead e)
    | .ok (bs, rest) =>
      .ok (bs.foldl (fun a b => a * 256 + b) 0, { st with rd := rest })
  | .Map32 =>
    match read_exact_buf 4 st.rd with
    | .error e => .error (.InvalidDataRead e)
    | .ok (bs, rest) =>
      .ok (bs.foldl (fun a b => a * 256 + b) 0, { st with rd := rest })
  | .FixArray n => .ok (n, st)
  | _ => .error (.TypeMismatch m)

/-- deserialize_enum (decode.rs:619-637): peek a marker; if it denotes a
container of length 1, clear the stashed marker and decode through
`VariantAccess`; a container of any other length fails with
`LengthMismatch(n)`; a non-container marker decodes through
`UnitVariantAccess` (with the marker still stashed). -/
def deserialize_enum (req : VariantReq) (d : Nat) (st : DState) :
    Except Error ((Value × Option Value) × DState) :=
  match peek_or_read_marker st with
  | .error e => .error (fromMarkerErr e)
  | .ok (marker, st1) =>
    match marker_to_len marker st1 with
    | .ok (len, st2) =>
      match len with
      | 1 => variantAccessRun req d { st2 with marker := none }
      | n => .error (.LengthMismatch n)
    | .error _ => unitVariantAccessRun req d st1

/-! ## deserialize_any at a bounded-consumption sequence visitor (C3) -/

/-- `SeqAccess::next_element_seed` (decode.rs:713-722) with the element seed
decoding via `f`: when elements remain, decrement the counter and decode
one; otherwise answer `None`. -/
def next_element_seed (f : DState → Except Error (Value × DState))
    (left : Nat) (st : DState) :
    Except Error (Option Value × Nat × DState) :=
  if 0 < left then
    match f st with
    | .error e => .error e
    | .ok (v, st') => .ok (some v, left - 1, st')
  else .ok (none, left, st)

/-- A visitor's `visit_seq` that requests at most `k` elements from the
`SeqAccess` and then returns successfully (e.g. a tuple visitor of arity
`k`), returning the final remaining counter `seq.left`. -/
def visitSeqTaking (f : DState → Except Error (Value × DState)) :
    Nat → Nat → DState → Except Error (List Value × Nat × DState)
  | 0, left, st => .ok ([], left, st)
  | k + 1, left, st =>
    match next_element_seed f left st with
    | .error e => .error e
    | .ok (none, left', st') => .ok ([], left', st')
    | .ok (some v, left', st') =>
      match visitSeqTaking f k left' st' with
      | .error e => .error e
      | .ok (vs, left'', st'') => .ok (v :: vs, left'', st'')

/-- A visitor's `visit_map` that requests at most `k` entries through
`MapAccess::next_key_seed` / `next_value_seed` (decode.rs:748-764): the key
request decrements the pair counter, the value is decoded
unconditionally. -/
def visitMapTaking (f : DState → Except Error (Value × DState)) :
    Nat → Nat → DState → Except Error (List (Value × Value) × Nat × DState)
  | 0, left, st => .ok ([], left, st)
  | k + 1, left, st =>
    match next_element_seed f left st with
    | .error e => .error e
    | .ok (none, left', st') => .ok ([], left', st')
    | .ok (some kv, left', st') =>
      match f st' with
      | .error e => .error e
      | .ok (v, st'') =>
        match visitMapTaking f k left' st'' with
        | .error e => .error e
        | .ok (kvs, left'', st3) => .ok ((kv, v) :: kvs, left'', st3)

/-- `deserialize_any` (decode.rs:496-590) instantiated at a visitor whose
`visit_seq`/`visit_map` consumes at most `k` elements/entries and then
returns: after the visit, the `seq.left` check (decode.rs:540-543 and
559-562) emits `LengthMismatch(len - excess)` when the counter is not
exhausted. A visitor expecting a sequence rejects every non-container
marker with a serde invalid-type error (those branches are not exercised by
the claims). -/
def deserialize_any_taking (k : Nat) (d : Nat) (st : DState) :
    Except Error (Value × DState) :=
  match take_or_read_marker st with
  | .error e => .error (fromMarkerErr e)
  | .ok (marker, st1) =>
    match marker with
    | .FixArray len =>
      match d with
      | 0 => .error .DepthLimitExceeded
      | d' + 1 =>
        if d' = 0 then .error .DepthLimitExceeded
        else
          match visitSeqTaking (deserialize_any d') k len st1 with
          | .error e => .error e
          | .ok (vs, left, st2) =>
            match left with
            | 0 => .ok (.arrayV vs, st2)
            | excess => .error (.LengthMismatch (len - excess))
    | .Array16 =>
      match read_u16 st1 with
      | .error e => .error e
      | .ok (len, st2) =>
        match d with
        | 0 => .error .DepthLimitExceeded
        | d' + 1 =>
          if d' = 0 then .error .DepthLimitExceeded
          else
            match visitSeqTaking (deserialize_any d') k len st2 with
            | .error e => .error e
            | .ok (vs, left, st3) =>
              match left with
              | 0 => .ok (.arrayV vs, st3)
              | excess => .error (.LengthMismatch (len - excess))
    | .Array32 =>
      match read_u32 st1 with
      | .error e => .error e
      | .ok (len, st2) =>
        match d with
        | 0 => .error .DepthLimitExceeded
        | d' + 1 =>
          if d' = 0 then .error .DepthLimitExceeded
          else
            match visitSeqTaking (deserialize_any d') k len st2 with
            | .error e => .error e
            | .ok (vs, left, st3) =>
              match left with
              | 0 => .ok (.arrayV vs, st3)
              | excess => .error (.LengthMismatch (len - excess))
    | .FixMap len =>
      match d with
      | 0 => .error .DepthLimitExceeded
      | d' + 1 =>
        if d' = 0 then .error .DepthLimitExceeded
        else
          match visitMapTaking (deserialize_any d') k len st1 with
          | .error e => .error e
          | .ok (kvs, left, st2) =>
            match left with
            | 0 => .ok (.mapV kvs, st2)
            | excess => .error (.LengthMismatch (len - excess))
    | .Map16 =>
      match read_u16 st1 with
      | .error e => .error e
      | .ok (len, st2) =>
        match d with
        | 0 => .error .DepthLimitExceeded
        | d' + 1 =>
          if d' = 0 then .error .DepthLimitExceeded
          else
            match visitMapTaking (deserialize_any d') k len st2 with
            | .error e => .error e
            | .ok (kvs, left, st3) =>
              match left with
              | 0 => .ok (.mapV kvs, st3)
              | excess => .error (.LengthMismatch (len - excess))
    | .Map32 =>
      match read_u32 st1 with
      | .error e => .error e
      | .ok (len, st2) =>
        match d with
        | 0 => .error .DepthLimitExceeded
        | d' + 1 =>
          if d' = 0 then .error .DepthLimitExceeded
          else
            match visitMapTaking (deserialize_any d') k len st2 with
            | .error e => .error e
            | .ok (kvs, left, st3) =>
              match left with
              | 0 => .ok (.mapV kvs, st3)
              | excess => .error (.LengthMismatch (len - excess))
    | _ => .error (invalid_type "non-container value" "a sequence or map")

end RmpSerde

namespace RmpSerde

/-! ## Helper lemmas about the primitive reads -/

theorem read_exact_buf_front (pre post : List Nat) (h : pre.length = n) :
    read_exact_buf n (pre ++ post) = .ok (pre, post) := by
  subst h
  simp [read_exact_buf, List.take_left, List.drop_left]

theorem read_slice_front (pre post : List Nat) (h : pre.length = n) :
    read_slice n (pre ++ post) = .ok (.Borrowed pre, post) := by
  subst h
  simp [read_slice, List.take_left, List.drop_left]

theorem read_bin_data_front (pre post : List Nat) (mk : Option Marker)
    (h : pre.length = n) :
    read_bin_data n ⟨pre ++ post, mk⟩ = .ok (.Borrowed pre, ⟨post, mk⟩) := by
  simp [read_bin_data, read_slice_front pre post h]

theorem read_exact_buf_one (b : Nat) (rest : List Nat) :
    read_exact_buf 1 (b :: rest) = .ok ([b], rest) := by
  simpa using read_exact_buf_front [b] rest rfl

theorem read_exact_buf_two (b1 b2 : Nat) (rest : List Nat) :
    read_exact_buf 2 (b1 :: b2 :: rest) = .ok ([b1, b2], rest) := by
  simpa using read_exact_buf_front [b1, b2] rest rfl

theorem read_be_one (b : Nat) (rest : List Nat) (mk : Option Marker) :
    read_be 1 ⟨b :: rest, mk⟩ = .ok (b, ⟨rest, mk⟩) := by
  simp [read_be, read_exact_buf_one]

theorem read_be_two (b1 b2 : Nat) (rest : List Nat) (mk : Option Marker) :
    read_be 2 ⟨b1 :: b2 :: rest, mk⟩ = .ok (b1 * 256 + b2, ⟨rest, mk⟩) := by
  simp [read_be, read_exact_buf_two]

theorem take_or_read_marker_byte (b : Nat) (rest : List Nat) :
    take_or_read_marker ⟨b :: rest, none⟩
      = .ok (markerFromU8 b, ⟨rest, none⟩) := by
  simp [take_or_read_marker, read_marker]

theorem take_or_read_marker_cached (rd : List Nat) (m : Marker) :
    take_or_read_marker ⟨rd, some m⟩ = .ok (m, ⟨rd, none⟩) := by
  simp [take_or_read_marker]

/-! ## C5: 128-bit integers -/

/-- C5: `deserialize_u128`/`deserialize_i128` succeed exactly on inputs whose
(taken-or-read) marker is `Bin8` with length byte 16: the 16 payload bytes
are interpreted as big-endian `u128`/`i128`; any other marker yields
`TypeMismatch(marker)`; a `Bin8` whose length byte differs from 16 yields
`LengthMismatch(16)`; and conversely a success implies the marker was `Bin8`
with length byte 16 and a 16-byte payload. -/
theorem c5_deserialize_128 (payload rest tail : List Nat) (b L : Nat)
    (hlen : payload.length = 16) (hb : markerFromU8 b ≠ .Bin8)
    (hL : L ≠ 16) :
    deserialize_u128 ⟨0xc4 :: 16 :: (payload ++ rest), none⟩
      = .ok (u128_from_be payload, ⟨rest, none⟩) ∧
    deserialize_i128 ⟨0xc4 :: 16 :: (payload ++ rest), none⟩
      = .ok (toSigned 16 (u128_from_be payload), ⟨rest, none⟩) ∧
    read_128 ⟨b :: tail, none⟩ = .error (.TypeMismatch (markerFromU8 b)) ∧
    read_128 ⟨0xc4 :: L :: tail, none⟩ = .error (.LengthMismatch 16) ∧
    (∀ st bs st', read_128 st = .ok (bs, st') →
      bs.length = 16 ∧
      ∃ st1 st2, take_or_read_marker st = .ok (.Bin8, st1) ∧
        read_u8 st1 = .ok (16, st2)) := by
  have hmk : markerFromU8 0xc4 = .Bin8 := rfl
  have h128 : read_128 ⟨0xc4 :: 16 :: (payload ++ rest), none⟩
      = .ok (payload, ⟨rest, none⟩) := by
    simp only [read_128, take_or_read_marker_byte, hmk]
    simp only [read_u8, read_be_one]
    simp [read_bin_data_front payload rest none hlen, Reference.bytes]
  refine ⟨?_, ?_, ?_, ?_, ?_⟩
  · simp [deserialize_u128, h128]
  · simp [deserialize_i128, h128]
  · simp [read_128, take_or_read_marker_byte, hb]
  · simp only [read_128, take_or_read_marker_byte, hmk]
    simp [read_u8, read_be_one, hL]
  · intro st bs st' h
    simp only [read_128] at h
    split at h
    · simp at h
    next m st1 hm =>
      split at h
      · simp at h
      next hbm =>
        have hm8 : m = .Bin8 := by
          by_contra hc
          simp [hc] at hbm
        subst hm8
        split at h
        · simp at h
        next len st2 hlenr =>
          split at h
          · simp at h
          next hl16 =>
            have hl : len = 16 := by
              by_contra hc
              simp [hc] at hl16
            subst hl
            refine ⟨?_, st1, st2, hm, hlenr⟩
            split at h
            · simp at h
            next r st3 hbin =>
              simp only [Except.ok.injEq, Prod.mk.injEq] at h
              obtain ⟨hbs, _⟩ := h
              subst hbs
              simp only [read_bin_data] at hbin
              split at hbin
              · simp at hbin
              next r' rest' hsl =>
                simp only [read_slice] at hsl
                split at hsl
                · simp at hsl
                next hge =>
                  simp only [Except.ok.injEq, Prod.mk.injEq] at hsl hbin
                  obtain ⟨hr', _⟩ := hsl
                  obtain ⟨hr, _⟩ := hbin
                  subst hr
                  rw [← hr']
                  simp [Reference.bytes]
                  omega

/-- Witness for C5: decoding `c4 10` followed by byte values 0..15 as `u128`
and `i128`; marker `c5` (`Bin16`) fails with `TypeMismatch`; `c4 0f` fails
with `LengthMismatch(16)`. -/
theorem c5_deserialize_128_witness :
    deserialize_u128 ⟨[0xc4, 16, 0, 1, 2, 3, 4, 5, 6, 7, 8, 9, 10, 11, 12,
      13, 14, 15], none⟩
      = .ok (u128_from_be [0, 1, 2, 3, 4, 5, 6, 7, 8, 9, 10, 11, 12, 13, 14,
        15], ⟨[], none⟩) ∧
    read_128 ⟨[0xc5, 0], none⟩ = .error (.TypeMismatch .Bin16) ∧
    read_128 ⟨[0xc4, 15, 0], none⟩ = .error (.LengthMismatch 16) := by
  have h := c5_deserialize_128
    [0, 1, 2, 3, 4, 5, 6, 7, 8, 9, 10, 11, 12, 13, 14, 15]
    [] [0] 0xc5 15 (by decide) (by decide) (by decide)
  exact ⟨by simpa using h.1, by simpa using h.2.2.1, h.2.2.2.1⟩

end RmpSerde

namespace RmpSerde

/-! ## C6: deserialize_option and the one-slot marker cache -/

/-- C6: `deserialize_option` takes one marker; on `Null` it answers `none`
with nothing stashed; otherwise it stores the marker back into the one-slot
cache and runs the inner visit on the same deserializer, so the next marker
access (`take_or_read_marker` / `peek_or_read_marker`) returns the stashed
marker without consuming input bytes, and nested optionals reuse the same
marker until a non-optional type consumes it. -/
theorem c6_deserialize_option {α : Type}
    (inner : Nat → DState → Except Error (α × DState))
    (b : Nat) (rest rd : List Nat) (m : Marker) (d : Nat)
    (hb : markerFromU8 b ≠ .Null) :
    deserialize_option inner d ⟨0xc0 :: rest, none⟩
      = .ok (none, ⟨rest, none⟩) ∧
    deserialize_option inner d ⟨rd, some .Null⟩ = .ok (none, ⟨rd, none⟩) ∧
    take_or_read_marker ⟨rd, some m⟩ = .ok (m, ⟨rd, none⟩) ∧
    peek_or_read_marker ⟨rd, some m⟩ = .ok (m, ⟨rd, some m⟩) ∧
    deserialize_option inner d ⟨b :: rest, none⟩
      = (inner d ⟨rest, some (markerFromU8 b)⟩).map
          (fun p => (some p.1, p.2)) ∧
    deserialize_option (deserialize_option inner) d ⟨b :: rest, none⟩
      = (inner d ⟨rest, some (markerFromU8 b)⟩).map
          (fun p => (some (some p.1), p.2)) := by
  have hnull : markerFromU8 0xc0 = .Null := rfl
  refine ⟨?_, ?_, ?_, ?_, ?_, ?_⟩
  · simp [deserialize_option, take_or_read_marker_byte, hnull]
  · simp [deserialize_option, take_or_read_marker_cached]
  · exact take_or_read_marker_cached rd m
  · simp [peek_or_read_marker]
  · simp only [deserialize_option, take_or_read_marker_byte, hb, if_neg]
    cases hi : inner d ⟨rest, some (markerFromU8 b)⟩ <;>
      simp [Except.map]
  · simp only [deserialize_option, take_or_read_marker_byte, hb, if_neg,
      take_or_read_marker_cached]
    cases hi : inner d ⟨rest, some (markerFromU8 b)⟩ <;>
      simp [Except.map]

/-- Witness for C6: a `nil` byte decodes to `none`; a doubly-nested option
over the byte `0x2a` reads the marker once, stashes it, and the innermost
decode consumes it from the cache, yielding `some (some 42)`. -/
theorem c6_deserialize_option_witness :
    deserialize_option deserialize_any 1024 ⟨[0xc0], none⟩
      = .ok (none, ⟨[], none⟩) ∧
    deserialize_option (deserialize_option deserialize_any) 1024
      ⟨[0x2a], none⟩ = .ok (some (some (.uintV 42)), ⟨[], none⟩) := by
  have h := c6_deserialize_option (α := Value) deserialize_any 0x2a [] []
    .Null 1024 (by decide)
  refine ⟨h.1, ?_⟩
  rw [h.2.2.2.2.2]
  rfl

/-! ## C4: deserialize_enum dispatch -/

/-- C4: `deserialize_enum` peeks a marker; a container of declared length 1
clears the stashed marker and proceeds through `VariantAccess` (identifier
then payload); a container of length `n ≠ 1` fails with
`LengthMismatch(n)`; a non-container marker proceeds through
`UnitVariantAccess`, whose `unit_variant` succeeds and whose
`newtype_variant`, `tuple_variant` and `struct_variant` requests fail with
serde's invalid-type error reporting `Unexpected::UnitVariant`. -/
theorem c4_deserialize_enum (req : VariantReq) (d len : Nat)
    (st st1 st2 stI : DState) (m : Marker) (ident : Value)
    (e0 : ValueReadError) :
    (peek_or_read_marker st = .ok (m, st1) →
      marker_to_len m st1 = .ok (1, st2) →
      deserialize_enum req d st
        = variantAccessRun req d { st2 with marker := none }) ∧
    (peek_or_read_marker st = .ok (m, st1) →
      marker_to_len m st1 = .ok (len, st2) → len ≠ 1 →
      deserialize_enum req d st = .error (.LengthMismatch len)) ∧
    (peek_or_read_marker st = .ok (m, st1) →
      marker_to_len m st1 = .error e0 →
      deserialize_enum req d st = unitVariantAccessRun req d st1) ∧
    (deserialize_any d st = .ok (ident, stI) →
      unitVariantAccessRun .unitVariant d st = .ok ((ident, none), stI) ∧
      unitVariantAccessRun .newtypeVariant d st
        = .error (invalid_type "unit variant" "newtype variant") ∧
      (∀ n, unitVariantAccessRun (.tupleVariant n) d st
        = .error (invalid_type "unit variant" "tuple variant")) ∧
      (∀ nf, unitVariantAccessRun (.structVariant nf) d st
        = .error (invalid_type "unit variant" "struct variant"))) := by
  refine ⟨?_, ?_, ?_, ?_⟩
  · intro hp hl
    simp [deserialize_enum, hp, hl]
  · intro hp hl hne
    simp only [deserialize_enum, hp, hl]
  · intro hp hl
    simp [deserialize_enum, hp, hl]
  · intro hi
    refine ⟨?_, ?_, fun n => ?_, fun nf => ?_⟩ <;>
      simp [unitVariantAccessRun, hi]

/-- Witness for C4: `81 a1 42 c0` (fixmap of 1: "B" → nil) decodes a unit
variant through `VariantAccess`; `82 ...` fails with `LengthMismatch(2)`;
`a1 42` (a bare string) decodes through `UnitVariantAccess`, succeeding for
a unit variant and failing with the invalid-type error for a newtype
variant. -/
theorem c4_deserialize_enum_witness :
    deserialize_enum .unitVariant 1024 ⟨[0x81, 0xa1, 0x42, 0xc0], none⟩
      = .ok ((.strV [0x42], none), ⟨[], none⟩) ∧
    deserialize_enum .unitVariant 1024 ⟨[0x82, 0xc0, 0xc0, 0xc0, 0xc0], none⟩
      = .error (.LengthMismatch 2) ∧
    deserialize_enum .unitVariant 1024 ⟨[0xa1, 0x42], none⟩
      = .ok ((.strV [0x42], none), ⟨[], none⟩) ∧
    deserialize_enum .newtypeVariant 1024 ⟨[0xa1, 0x42], none⟩
      = .error (invalid_type "unit variant" "newtype variant") := by
  refine ⟨?_, ?_, ?_, ?_⟩
  · have h := (c4_deserialize_enum .unitVariant 1024 1
      ⟨[0x81, 0xa1, 0x42, 0xc0], none⟩
      ⟨[0xa1, 0x42, 0xc0], some (.FixMap 1)⟩
      ⟨[0xa1, 0x42, 0xc0], some (.FixMap 1)⟩ ⟨[], none⟩ (.FixMap 1)
      .unitV (.TypeMismatch .Null)).1 rfl rfl
    rw [h]
    rfl
  · exact (c4_deserialize_enum .unitVariant 1024 2
      ⟨[0x82, 0xc0, 0xc0, 0xc0, 0xc0], none⟩
      ⟨[0xc0, 0xc0, 0xc0, 0xc0], some (.FixMap 2)⟩
      ⟨[0xc0, 0xc0, 0xc0, 0xc0], some (.FixMap 2)⟩ ⟨[], none⟩ (.FixMap 2)
      .unitV (.TypeMismatch .Null)).2.1 rfl rfl (by decide)
  · have h := (c4_deserialize_enum .unitVariant 1024 1
      ⟨[0xa1, 0x42], none⟩ ⟨[0x42], some (.FixStr 1)⟩ ⟨[], none⟩ ⟨[], none⟩
      (.FixStr 1) (.strV [0x42])
      (.TypeMismatch (.FixStr 1))).2.2.1 rfl rfl
    rw [h]
    exact ((c4_deserialize_enum .unitVariant 1024 1
      ⟨[0x42], some (.FixStr 1)⟩ ⟨[], none⟩ ⟨[], none⟩ ⟨[], none⟩
      (.FixStr 1) (.strV [0x42])
      (.TypeMismatch (.FixStr 1))).2.2.2 rfl).1
  · have h := (c4_deserialize_enum .newtypeVariant 1024 1
      ⟨[0xa1, 0x42], none⟩ ⟨[0x42], some (.FixStr 1)⟩ ⟨[], none⟩ ⟨[], none⟩
      (.FixStr 1) (.strV [0x42])
      (.TypeMismatch (.FixStr 1))).2.2.1 rfl rfl
    rw [h]
    exact ((c4_deserialize_enum .newtypeVariant 1024 1
      ⟨[0x42], some (.FixStr 1)⟩ ⟨[], none⟩ ⟨[], none⟩ ⟨[], none⟩
      (.FixStr 1) (.strV [0x42])
      (.TypeMismatch (.FixStr 1))).2.2.2 rfl).2.1

end RmpSerde

namespace RmpSerde

/-! ## C3: LengthMismatch on partial visitor consumption -/

set_option maxRecDepth 4000 in
theorem markerFromU8_fixarray (N : Nat) (h : N < 16) :
    markerFromU8 (0x90 + N) = .FixArray N := by
  simp only [markerFromU8]
  rw [if_neg (by omega), if_neg (by omega), if_pos (by omega)]
  congr 1
  omega

set_option maxRecDepth 4000 in
theorem markerFromU8_fixmap (N : Nat) (h : N < 16) :
    markerFromU8 (0x80 + N) = .FixMap N := by
  simp only [markerFromU8]
  rw [if_neg (by omega), if_pos (by omega)]
  congr 1
  omega

set_option maxRecDepth 4000 in
theorem markerFromU8_fixstr (N : Nat) (h : N < 32) :
    markerFromU8 (0xa0 + N) = .FixStr N := by
  simp only [markerFromU8]
  rw [if_neg (by omega), if_neg (by omega), if_neg (by omega),
    if_pos (by omega)]
  congr 1
  omega

/-- A visitor that requests `k ≤ left` elements performs exactly the `k`
element decodes of `seqElemsGo` and leaves `left - k` on the
`SeqAccess` counter. -/
theorem visitSeqTaking_of_le (f : DState → Except Error (Value × DState)) :
    ∀ (k left : Nat) (st : DState), k ≤ left →
    visitSeqTaking f k left st
      = match seqElemsGo f k st with
        | .error e => .error e
        | .ok (vs, st') => .ok (vs, left - k, st') := by
  intro k
  induction k with
  | zero =>
    intro left st _
    simp [visitSeqTaking, seqElemsGo]
  | succ k ih =>
    intro left st h
    obtain ⟨l', rfl⟩ : ∃ l', left = l' + 1 := ⟨left - 1, by omega⟩
    simp only [visitSeqTaking, next_element_seed]
    rw [if_pos (by omega)]
    cases hf : f st with
    | error e => simp [seqElemsGo, hf]
    | ok p =>
      obtain ⟨v, st1⟩ := p
      simp only
      rw [ih (l' + 1 - 1) st1 (by omega)]
      cases hs : seqElemsGo f k st1 with
      | error e => simp [seqElemsGo, hf, hs]
      | ok q =>
        obtain ⟨vs, st2⟩ := q
        have harith : l' + 1 - 1 - k = l' + 1 - (k + 1) := by omega
        simp [seqElemsGo, hf, hs, harith]

/-- Map analogue of `visitSeqTaking_of_le`: `k ≤ left` key requests perform
the `k` pair decodes of `mapElemsGo` and leave `left - k` pairs on the
`MapAccess` counter. -/
theorem visitMapTaking_of_le (f : DState → Except Error (Value × DState)) :
    ∀ (k left : Nat) (st : DState), k ≤ left →
    visitMapTaking f k left st
      = match mapElemsGo f k st with
        | .error e => .error e
        | .ok (kvs, st') => .ok (kvs, left - k, st') := by
  intro k
  induction k with
  | zero =>
    intro left st _
    simp [visitMapTaking, mapElemsGo]
  | succ k ih =>
    intro left st h
    obtain ⟨l', rfl⟩ : ∃ l', left = l' + 1 := ⟨left - 1, by omega⟩
    simp only [visitMapTaking, next_element_seed]
    rw [if_pos (by omega)]
    cases hf : f st with
    | error e => simp [mapElemsGo, hf]
    | ok p =>
      obtain ⟨kv, st1⟩ := p
      simp only
      cases hg : f st1 with
      | error e => simp [mapElemsGo, hf, hg]
      | ok q =>
        obtain ⟨v, st2⟩ := q
        simp only
        rw [ih (l' + 1 - 1) st2 (by omega)]
        cases hs : mapElemsGo f k st2 with
        | error e => simp [mapElemsGo, hf, hg, hs]
        | ok r =>
          obtain ⟨kvs, st3⟩ := r
          have harith : l' + 1 - 1 - k = l' + 1 - (k + 1) := by omega
          simp [mapElemsGo, hf, hg, hs, harith]

/-- C3: decoding an array (or map) whose header declares `N` elements (or
pairs) into a visitor that consumes only `K < N` of them and then returns
successfully yields `LengthMismatch(K)` — the error value is the consumed
count, i.e. the declared length minus the remaining counter. -/
theorem c3_length_mismatch (N K d' : Nat) (rd1 : List Nat)
    (vs : List Value) (kvs : List (Value × Value)) (stA stB : DState)
    (hN : N < 16) (hK : K < N) (hd : d' ≠ 0) :
    (seqElemsGo (deserialize_any d') K ⟨rd1, none⟩ = .ok (vs, stA) →
      deserialize_any_taking K (d' + 1) ⟨(0x90 + N) :: rd1, none⟩
        = .error (.LengthMismatch K)) ∧
    (mapElemsGo (deserialize_any d') K ⟨rd1, none⟩ = .ok (kvs, stB) →
      deserialize_any_taking K (d' + 1) ⟨(0x80 + N) :: rd1, none⟩
        = .error (.LengthMismatch K)) := by
  obtain ⟨e, he⟩ : ∃ e, N - K = e + 1 := ⟨N - K - 1, by omega⟩
  constructor
  · intro h
    simp only [deserialize_any_taking, take_or_read_marker_byte,
      markerFromU8_fixarray N hN]
    rw [if_neg hd, visitSeqTaking_of_le _ K N ⟨rd1, none⟩ (le_of_lt hK), h]
    simp only [he]
    have : N - (e + 1) = K := by omega
    simp [this]
  · intro h
    simp only [deserialize_any_taking, take_or_read_marker_byte,
      markerFromU8_fixmap N hN]
    rw [if_neg hd, visitMapTaking_of_le _ K N ⟨rd1, none⟩ (le_of_lt hK), h]
    simp only [he]
    have : N - (e + 1) = K := by omega
    simp [this]

/-- Witness for C3: the array `92 01 02` (two elements) visited by a
one-element visitor yields `LengthMismatch(1)`, and likewise the map
`82 01 02 03 04` (two pairs) visited by a one-pair visitor. -/
theorem c3_length_mismatch_witness :
    deserialize_any_taking 1 1024 ⟨[0x92, 0x01, 0x02], none⟩
      = .error (.LengthMismatch 1) ∧
    deserialize_any_taking 1 1024 ⟨[0x82, 0x01, 0x02, 0x03, 0x04], none⟩
      = .error (.LengthMismatch 1) := by
  have h := c3_length_mismatch 2 1 1023 [0x01, 0x02]
    [.uintV 1] [(.uintV 1, .uintV 2)] ⟨[0x02], none⟩ ⟨[0x03, 0x04], none⟩
    (by decide) (by decide) (by decide)
  have h2 := c3_length_mismatch 2 1 1023 [0x01, 0x02, 0x03, 0x04]
    [.uintV 1] [(.uintV 1, .uintV 2)] ⟨[0x02, 0x03, 0x04], none⟩
    ⟨[0x03, 0x04], none⟩ (by decide) (by decide) (by decide)
  exact ⟨h.1 rfl, h2.2 rfl⟩

end RmpSerde

namespace RmpSerde

/-! ## C7: string markers, UTF-8 fallback, Utf8Error surfacing -/

theorem read_exact_buf_four (b1 b2 b3 b4 : Nat) (rest : List Nat) :
    read_exact_buf 4 (b1 :: b2 :: b3 :: b4 :: rest)
      = .ok ([b1, b2, b3, b4], rest) := by
  simpa using read_exact_buf_front [b1, b2, b3, b4] rest rfl

theorem read_be_four (b1 b2 b3 b4 : Nat) (rest : List Nat)
    (mk : Option Marker) :
    read_be 4 ⟨b1 :: b2 :: b3 :: b4 :: rest, mk⟩
      = .ok (((b1 * 256 + b2) * 256 + b3) * 256 + b4, ⟨rest, mk⟩) := by
  simp [read_be, read_exact_buf_four]

/-- C7: on a string marker, `deserialize_any` computes the declared length
(from the fixstr marker byte, or a following u8/u16/u32) and defers to
`read_str_data`; `read_str_data` reads exactly that many payload bytes; on
valid UTF-8 it calls `visit_borrowed_str` (borrowed input) / `visit_str`
(copied input); on invalid UTF-8 it tries `visit_borrowed_bytes` /
`visit_bytes` on the same bytes, and only when that visitor call also fails
does it return `Utf8Error` carrying the original UTF-8 error — the
visitor's own error is discarded. -/
theorem c7_string_utf8_fallback {α : Type} (vis : StrVisitor α)
    (n L b1 b2 b3 b4 d len : Nat) (rest pre post buf : List Nat)
    (mk : Option Marker) (e : Utf8ErrorS) (e' : Error) (v : α)
    (hn : n < 32) (hlen : pre.length = len) :
    (deserialize_any d ⟨(0xa0 + n) :: rest, none⟩
      = read_str_data n valueStrVisitor ⟨rest, none⟩) ∧
    (deserialize_any d ⟨0xd9 :: L :: rest, none⟩
      = read_str_data L valueStrVisitor ⟨rest, none⟩) ∧
    (deserialize_any d ⟨0xda :: b1 :: b2 :: rest, none⟩
      = read_str_data (b1 * 256 + b2) valueStrVisitor ⟨rest, none⟩) ∧
    (deserialize_any d ⟨0xdb :: b1 :: b2 :: b3 :: b4 :: rest, none⟩
      = read_str_data (((b1 * 256 + b2) * 256 + b3) * 256 + b4)
          valueStrVisitor ⟨rest, none⟩) ∧
    (read_str_data len vis ⟨pre ++ post, mk⟩
      = match read_str_data_ref (.Borrowed pre) vis with
        | .error e => .error e
        | .ok a => .ok (a, ⟨post, mk⟩)) ∧
    (utf8_validate buf = none →
      read_str_data_ref (.Borrowed buf) vis = vis.visit_borrowed_str buf ∧
      read_str_data_ref (.Copied buf) vis = vis.visit_str buf) ∧
    (utf8_validate buf = some e →
      (vis.visit_borrowed_bytes buf = .ok v →
        read_str_data_ref (.Borrowed buf) vis = .ok v) ∧
      (vis.visit_borrowed_bytes buf = .error e' →
        read_str_data_ref (.Borrowed buf) vis = .error (.Utf8Error e)) ∧
      (vis.visit_bytes buf = .ok v →
        read_str_data_ref (.Copied buf) vis = .ok v) ∧
      (vis.visit_bytes buf = .error e' →
        read_str_data_ref (.Copied buf) vis = .error (.Utf8Error e))) := by
  have h8 : markerFromU8 0xd9 = .Str8 := rfl
  have h16 : markerFromU8 0xda = .Str16 := rfl
  have h32 : markerFromU8 0xdb = .Str32 := rfl
  refine ⟨?_, ?_, ?_, ?_, ?_, ?_, ?_⟩
  · simp only [deserialize_any, take_or_read_marker_byte,
      markerFromU8_fixstr n hn]
  · simp only [deserialize_any, take_or_read_marker_byte, h8, read_u8,
      read_be_one]
  · simp only [deserialize_any, take_or_read_marker_byte, h16, read_u16,
      read_be_two]
  · simp only [deserialize_any, take_or_read_marker_byte, h32, read_u32,
      read_be_four]
  · simp only [read_str_data, read_bin_data_front pre post mk hlen]
  · intro hu
    constructor <;> simp [read_str_data_ref, hu]
  · intro hu
    refine ⟨?_, ?_, ?_, ?_⟩ <;> intro hv <;>
      simp [read_str_data_ref, hu, hv]

/-- Witness for C7: `a1 41` decodes to the string "A"; the invalid byte
`ff` under a one-byte fixstr with a bytes-rejecting visitor surfaces
`Utf8Error` at index 0 (the visitor's own error `OutOfRange` is discarded),
while the canonical visitor accepts the same bytes as a byte array. -/
theorem c7_string_utf8_fallback_witness :
    deserialize_any 1024 ⟨[0xa1, 0x41], none⟩
      = .ok (.strV [0x41], ⟨[], none⟩) ∧
    read_str_data 1
      ⟨fun b => .ok (Value.strV b), fun b => .ok (Value.strV b),
        fun _ => .error .OutOfRange, fun _ => .error .OutOfRange⟩
      ⟨[0xff], none⟩ = .error (.Utf8Error ⟨0, some 1⟩) ∧
    deserialize_any 1024 ⟨[0xa1, 0xff], none⟩
      = .ok (.binV [0xff], ⟨[], none⟩) := by
  have h1 := c7_string_utf8_fallback (α := Value) valueStrVisitor 1 0 0 0 0 0
    1024 1 [0x41] [0x41] [] [0x41] none ⟨0, some 1⟩ .OutOfRange .unitV
    (by decide) rfl
  have hrej := c7_string_utf8_fallback (α := Value)
    ⟨fun b => .ok (Value.strV b), fun b => .ok (Value.strV b),
      fun _ => .error .OutOfRange, fun _ => .error .OutOfRange⟩
    1 0 0 0 0 0 1024 1 [0xff] [0xff] [] [0xff] none ⟨0, some 1⟩
    .OutOfRange .unitV (by decide) rfl
  refine ⟨?_, ?_, ?_⟩
  · rw [h1.1]
    rfl
  · have h5 := hrej.2.2.2.2.1
    simp only [List.append_nil] at h5
    rw [h5]
    have := (hrej.2.2.2.2.2.2 rfl).2.1 rfl
    rw [this]
  · have h2 := c7_string_utf8_fallback (α := Value) valueStrVisitor 1 0 0 0 0
      0 1024 1 [0xff] [0xff] [] [0xff] none ⟨0, some 1⟩ .OutOfRange .unitV
      (by decide) rfl
    rw [h2.1]
    rfl

end RmpSerde

namespace RmpSerde

/-! ## C9: the depth boundary on the canonical nested-array family -/

/-- Decoding `k+1` nested fixarrays with remaining-depth budget `d` fails
with `DepthLimitExceeded` exactly when `d ≤ k+1`: each descent hands the
decremented counter to the element decode and fails when the decrement
reaches zero. -/
theorem nested_decode : ∀ (k d : Nat) (rest : List Nat),
    deserialize_any d ⟨nestedArrayBytes (k + 1) ++ rest, none⟩
      = if d ≤ k + 1 then .error .DepthLimitExceeded
        else .ok (nestedArrayValue (k + 1), ⟨rest, none⟩) := by
  have h91 : markerFromU8 0x91 = .FixArray 1 := rfl
  have hc0 : markerFromU8 0xc0 = .Null := rfl
  intro k
  induction k with
  | zero =>
    intro d rest
    rcases d with _ | _ | d2
    · simp [nestedArrayBytes, deserialize_any, take_or_read_marker_byte, h91]
    · simp [nestedArrayBytes, deserialize_any, take_or_read_marker_byte, h91]
    · have helem : deserialize_any (d2 + 1) ⟨0xc0 :: rest, none⟩
          = .ok (.unitV, ⟨rest, none⟩) := by
        simp [deserialize_any, take_or_read_marker_byte, hc0]
      simp [nestedArrayBytes, nestedArrayValue, deserialize_any,
        take_or_read_marker_byte, h91, seqElemsGo, helem]
  | succ k ih =>
    intro d rest
    rcases d with _ | _ | d2
    · simp [nestedArrayBytes, deserialize_any, take_or_read_marker_byte, h91]
    · simp [nestedArrayBytes, deserialize_any, take_or_read_marker_byte, h91]
    · have helem := ih (d2 + 1) rest
      by_cases hle : d2 + 1 ≤ k + 1
      · rw [if_pos hle] at helem
        have hb : nestedArrayBytes (k + 1 + 1) ++ rest
            = 0x91 :: (nestedArrayBytes (k + 1) ++ rest) := rfl
        rw [hb, if_pos (by omega)]
        simp only [deserialize_any, take_or_read_marker_byte, h91]
        simp [seqElemsGo, helem]
      · rw [if_neg hle] at helem
        have : nestedArrayBytes (k + 1 + 1) ++ rest
            = 0x91 :: (nestedArrayBytes (k + 1) ++ rest) := rfl
        rw [this]
        simp only [deserialize_any, take_or_read_marker_byte, h91]
        rw [if_neg (by omega)]
        simp only [seqElemsGo, helem]
        rw [if_neg (by omega)]
        simp [nestedArrayValue]
  
/-- C9: with the remaining-depth counter set to `N`, an input whose
container nesting equals exactly `N` already fails with
`DepthLimitExceeded` — the counter is decremented before being compared to
zero — while `N - 1` nested levels still decode successfully, so at most
`N - 1` nested containers can be entered. -/
theorem c9_depth_exact_boundary (N : Nat) (hN : 1 ≤ N) :
    ((Deserializer.from_bytes (nestedArrayBytes N)).set_max_depth N).runAny
      = .error .DepthLimitExceeded ∧
    ((Deserializer.from_bytes
      (nestedArrayBytes (N - 1))).set_max_depth N).runAny
      = .ok (nestedArrayValue (N - 1), ⟨[], none⟩) := by
  obtain ⟨k, rfl⟩ : ∃ k, N = k + 1 := ⟨N - 1, by omega⟩
  constructor
  · have h := nested_decode k (k + 1) []
    simp only [List.append_nil] at h
    simp [Deserializer.runAny, Deserializer.from_bytes,
      Deserializer.set_max_depth, h]
  · cases k with
    | zero =>
      have hc0 : markerFromU8 0xc0 = .Null := rfl
      simp [Deserializer.runAny, Deserializer.from_bytes,
        Deserializer.set_max_depth, nestedArrayBytes, nestedArrayValue,
        deserialize_any, take_or_read_marker_byte, hc0]
    | succ k2 =>
      have h := nested_decode k2 (k2 + 2) []
      simp only [List.append_nil] at h
      rw [if_neg (by omega)] at h
      simpa [Deserializer.runAny, Deserializer.from_bytes,
        Deserializer.set_max_depth] using h

/-- Witness for C9 at `N = 2`: `[[nil]]` fails under depth cap 2 while
`[nil]` still decodes. -/
theorem c9_depth_exact_boundary_witness :
    ((Deserializer.from_bytes
      (nestedArrayBytes 2)).set_max_depth 2).runAny
      = .error .DepthLimitExceeded ∧
    ((Deserializer.from_bytes
      (nestedArrayBytes 1)).set_max_depth 2).runAny
      = .ok (nestedArrayValue 1, ⟨[], none⟩) := by
  exact c9_depth_exact_boundary 2 (by decide)

end RmpSerde

namespace RmpSerde

/-! ## C2: general depth-limit characterization -/

/-- Sequence-loop step of the depth characterization: if every element
decode at budget `d'` is depth-characterized, then a successful element loop
at `d'` is bounded by the largest element depth, succeeds unchanged at every
budget above it, and fails with `DepthLimitExceeded` at every positive
budget at or below it. -/
theorem seqElemsGo_depth (d' : Nat)
    (hP : ∀ st v st', deserialize_any d' st = .ok (v, st') →
      (1 ≤ d' → containerDepth v < d') ∧
      (∀ e, containerDepth v < e → deserialize_any e st = .ok (v, st')) ∧
      (∀ e, 1 ≤ e → e ≤ containerDepth v →
        deserialize_any e st = .error .DepthLimitExceeded)) :
    ∀ (left : Nat) (st : DState) (vs : List Value) (st' : DState),
      seqElemsGo (deserialize_any d') left st = .ok (vs, st') →
      (1 ≤ d' → containerDepthList vs < d') ∧
      (∀ e, containerDepthList vs < e →
        seqElemsGo (deserialize_any e) left st = .ok (vs, st')) ∧
      (∀ e, 1 ≤ e → e ≤ containerDepthList vs →
        seqElemsGo (deserialize_any e) left st
          = .error .DepthLimitExceeded) := by
  intro left
  induction left with
  | zero =>
    intro st vs st' h
    simp only [seqElemsGo, Except.ok.injEq, Prod.mk.injEq] at h
    obtain ⟨rfl, rfl⟩ := h
    refine ⟨fun h1 => ?_, fun e he => by simp [seqElemsGo],
      fun e he1 he2 => ?_⟩
    · simp only [containerDepthList]
      omega
    · simp only [containerDepthList] at he2
      omega
  | succ left ih =>
    intro st vs st' h
    simp only [seqElemsGo] at h
    split at h
    · simp at h
    next v1 st1 hf =>
      split at h
      · simp at h
      next vs1 st2 hs =>
        simp only [Except.ok.injEq, Prod.mk.injEq] at h
        obtain ⟨rfl, rfl⟩ := h
        obtain ⟨hA1, hB1, hC1⟩ := hP st v1 st1 hf
        obtain ⟨hA2, hB2, hC2⟩ := ih st1 vs1 st2 hs
        refine ⟨fun h1 => ?_, fun e he => ?_, fun e he1 he2 => ?_⟩
        · have a1 := hA1 h1
          have a2 := hA2 h1
          simp only [containerDepthList]
          omega
        · simp only [containerDepthList] at he
          have b1 := hB1 e (by omega)
          have b2 := hB2 e (by omega)
          simp only [seqElemsGo, b1, b2]
        · simp only [containerDepthList] at he2
          by_cases hev : e ≤ containerDepth v1
          · have c1 := hC1 e he1 hev
            simp only [seqElemsGo, c1]
          · have b1 := hB1 e (by omega)
            have c2 := hC2 e he1 (by omega)
            simp only [seqElemsGo, b1, c2]

/-- Map-loop analogue of `seqElemsGo_depth`: each entry decodes a key and a
value at budget `d'`. -/
theorem mapElemsGo_depth (d' : Nat)
    (hP : ∀ st v st', deserialize_any d' st = .ok (v, st') →
      (1 ≤ d' → containerDepth v < d') ∧
      (∀ e, containerDepth v < e → deserialize_any e st = .ok (v, st')) ∧
      (∀ e, 1 ≤ e → e ≤ containerDepth v →
        deserialize_any e st = .error .DepthLimitExceeded)) :
    ∀ (left : Nat) (st : DState) (kvs : List (Value × Value)) (st' : DState),
      mapElemsGo (deserialize_any d') left st = .ok (kvs, st') →
      (1 ≤ d' → containerDepthPairs kvs < d') ∧
      (∀ e, containerDepthPairs kvs < e →
        mapElemsGo (deserialize_any e) left st = .ok (kvs, st')) ∧
      (∀ e, 1 ≤ e → e ≤ containerDepthPairs kvs →
        mapElemsGo (deserialize_any e) left st
          = .error .DepthLimitExceeded) := by
  intro left
  induction left with
  | zero =>
    intro st kvs st' h
    simp only [mapElemsGo, Except.ok.injEq, Prod.mk.injEq] at h
    obtain ⟨rfl, rfl⟩ := h
    refine ⟨fun h1 => ?_, fun e he => by simp [mapElemsGo],
      fun e he1 he2 => ?_⟩
    · simp only [containerDepthPairs]
      omega
    · simp only [containerDepthPairs] at he2
      omega
  | succ left ih =>
    intro st kvs st' h
    simp only [mapElemsGo] at h
    split at h
    · simp at h
    next k1 st1 hf =>
      split at h
      · simp at h
      next v1 st2 hg =>
        split at h
        · simp at h
        next kvs1 st3 hs =>
          simp only [Except.ok.injEq, Prod.mk.injEq] at h
          obtain ⟨rfl, rfl⟩ := h
          obtain ⟨hA1, hB1, hC1⟩ := hP st k1 st1 hf
          obtain ⟨hA2, hB2, hC2⟩ := hP st1 v1 st2 hg
          obtain ⟨hA3, hB3, hC3⟩ := ih st2 kvs1 st3 hs
          refine ⟨fun h1 => ?_, fun e he => ?_, fun e he1 he2 => ?_⟩
          · have a1 := hA1 h1
            have a2 := hA2 h1
            have a3 := hA3 h1
            simp only [containerDepthPairs]
            omega
          · simp only [containerDepthPairs] at he
            have b1 := hB1 e (by omega)
            have b2 := hB2 e (by omega)
            have b3 := hB3 e (by omega)
            simp only [mapElemsGo, b1, b2, b3]
          · simp only [containerDepthPairs] at he2
            by_cases hek : e ≤ containerDepth k1
            · have c1 := hC1 e he1 hek
              simp only [mapElemsGo, c1]
            · have b1 := hB1 e (by omega)
              by_cases hev : e ≤ containerDepth v1
              · have c2 := hC2 e he1 hev
                simp only [mapElemsGo, b1, c2]
              · have b2 := hB2 e (by omega)
                have c3 := hC3 e he1 (by omega)
                simp only [mapElemsGo, b1, b2, c3]

end RmpSerde

namespace RmpSerde

/-- Any value produced by `read_str_data` at the canonical visitor is a
string or byte leaf, of container depth 0. -/
theorem read_str_data_value_cd (len : Nat) (st st' : DState) (v : Value)
    (h : read_str_data len valueStrVisitor st = .ok (v, st')) :
    containerDepth v = 0 := by
  simp only [read_str_data] at h
  split at h
  · simp at h
  next r st1 hb =>
    split at h
    · simp at h
    next a hr =>
      simp only [Except.ok.injEq, Prod.mk.injEq] at h
      obtain ⟨rfl, rfl⟩ := h
      rcases r with buf | buf <;>
        simp only [read_str_data_ref, valueStrVisitor] at hr <;>
        split at hr <;> simp only [Except.ok.injEq] at hr <;> subst hr <;>
        simp [containerDepth]

/-- The three depth-characterization conclusions follow directly for any
branch whose result does not consult the depth counter. -/
theorem depth_char_of_scalar {d : Nat} {st : DState} {v : Value}
    {st' : DState} (h0 : deserialize_any d st = .ok (v, st'))
    (hcd : containerDepth v = 0)
    (hindep : ∀ e, deserialize_any e st = deserialize_any d st) :
    (1 ≤ d → containerDepth v < d) ∧
    (∀ e, containerDepth v < e → deserialize_any e st = .ok (v, st')) ∧
    (∀ e, 1 ≤ e → e ≤ containerDepth v →
      deserialize_any e st = .error .DepthLimitExceeded) := by
  refine ⟨fun h1 => by rw [hcd]; omega, fun e he => by rw [hindep e, h0],
    fun e he1 he2 => by rw [hcd] at he2; omega⟩

set_option maxHeartbeats 2000000 in
/-- Depth characterization of the decoder: a successful decode at budget `d`
produces a value whose container depth is below `d`; the same decode
succeeds identically at every budget above the value's container depth; and
it fails with `DepthLimitExceeded` at every positive budget at or below the
value's container depth (so the depth counter alone decides the outcome,
which is what the restore-on-return discipline of `depth_count!`
guarantees). -/
theorem deserialize_any_depth : ∀ (d : Nat) (st : DState) (v : Value)
    (st' : DState), deserialize_any d st = .ok (v, st') →
    (1 ≤ d → containerDepth v < d) ∧
    (∀ e, containerDepth v < e → deserialize_any e st = .ok (v, st')) ∧
    (∀ e, 1 ≤ e → e ≤ containerDepth v →
      deserialize_any e st = .error .DepthLimitExceeded) := by
  intro d
  induction d using Nat.strong_induction_on with
  | _ d IH =>
  intro st v st' h0
  have h := h0
  simp only [deserialize_any] at h
  split at h
  next e0 hm0 =>
    simp at h
  next m st1 hm =>
    split at h
    all_goals try (
      refine depth_char_of_scalar h0 ?hcd ?hind
      case hind =>
        intro e
        simp only [deserialize_any, hm]
      case hcd =>
        repeat' split at h
        all_goals first
          | exact read_str_data_value_cd _ _ _ _ h
          | (simp only [Except.ok.injEq, Prod.mk.injEq] at h
             obtain ⟨h1, h2⟩ := h
             subst h1
             simp [containerDepth])
          | simp at h)
    -- FixArray
    · split at h
      · simp at h
      next d' =>
        by_cases hd' : d' = 0
        · subst hd'
          simp at h
        · rw [if_neg hd'] at h
          split at h
          · simp at h
          next vs st2 hseq =>
            simp only [Except.ok.injEq, Prod.mk.injEq] at h
            obtain ⟨rfl, rfl⟩ := h
            obtain ⟨hsA, hsB, hsC⟩ :=
              seqElemsGo_depth d' (IH d' (by omega)) _ st1 vs st2 hseq
            refine ⟨fun _ => ?_, fun e he => ?_, fun e he1 he2 => ?_⟩
            · have := hsA (by omega)
              simp only [containerDepth]
              omega
            · simp only [containerDepth] at he
              rcases e with _ | e'
              · omega
              · have b := hsB e' (by omega)
                simp only [deserialize_any, hm]
                rw [if_neg (show ¬ e' = 0 by omega)]
                simp only [b]
            · simp only [containerDepth] at he2
              rcases e with _ | e'
              · omega
              · simp only [deserialize_any, hm]
                by_cases he0 : e' = 0
                · subst he0
                  simp
                · rw [if_neg he0]
                  have c := hsC e' (by omega) (by omega)
                  simp only [c]
    -- Array16
    · split at h
      · simp at h
      next len st2 hlen =>
        split at h
        · simp at h
        next d' =>
          by_cases hd' : d' = 0
          · subst hd'
            simp at h
          · rw [if_neg hd'] at h
            split at h
            · simp at h
            next vs st3 hseq =>
              simp only [Except.ok.injEq, Prod.mk.injEq] at h
              obtain ⟨rfl, rfl⟩ := h
              obtain ⟨hsA, hsB, hsC⟩ :=
                seqElemsGo_depth d' (IH d' (by omega)) len st2 vs st3 hseq
              refine ⟨fun _ => ?_, fun e he => ?_, fun e he1 he2 => ?_⟩
              · have := hsA (by omega)
                simp only [containerDepth]
                omega
              · simp only [containerDepth] at he
                rcases e with _ | e'
                · omega
                · have b := hsB e' (by omega)
                  simp only [deserialize_any, hm, hlen]
                  rw [if_neg (show ¬ e' = 0 by omega)]
                  simp only [b]
              · simp only [containerDepth] at he2
                rcases e with _ | e'
                · omega
                · simp only [deserialize_any, hm, hlen]
                  by_cases he0 : e' = 0
                  · subst he0
                    simp
                  · rw [if_neg he0]
                    have c := hsC e' (by omega) (by omega)
                    simp only [c]
    -- Array32
    · split at h
      · simp at h
      next len st2 hlen =>
        split at h
        · simp at h
        next d' =>
          by_cases hd' : d' = 0
          · subst hd'
            simp at h
          · rw [if_neg hd'] at h
            split at h
            · simp at h
            next vs st3 hseq =>
              simp only [Except.ok.injEq, Prod.mk.injEq] at h
              obtain ⟨rfl, rfl⟩ := h
              obtain ⟨hsA, hsB, hsC⟩ :=
                seqElemsGo_depth d' (IH d' (by omega)) len st2 vs st3 hseq
              refine ⟨fun _ => ?_, fun e he => ?_, fun e he1 he2 => ?_⟩
              · have := hsA (by omega)
                simp only [containerDepth]
                omega
              · simp only [containerDepth] at he
                rcases e with _ | e'
                · omega
                · have b := hsB e' (by omega)
                  simp only [deserialize_any, hm, hlen]
                  rw [if_neg (show ¬ e' = 0 by omega)]
                  simp only [b]
              · simp only [containerDepthPairs, containerDepth] at he2
                rcases e with _ | e'
                · omega
                · simp only [deserialize_any, hm, hlen]
                  by_cases he0 : e' = 0
                  · subst he0
                    simp
                  · rw [if_neg he0]
                    have c := hsC e' (by omega) (by omega)
                    simp only [c]
    -- FixMap
    · split at h
      · simp at h
      next d' =>
        by_cases hd' : d' = 0
        · subst hd'
          simp at h
        · rw [if_neg hd'] at h
          split at h
          · simp at h
          next kvs st2 hseq =>
            simp only [Except.ok.injEq, Prod.mk.injEq] at h
            obtain ⟨rfl, rfl⟩ := h
            obtain ⟨hsA, hsB, hsC⟩ :=
              mapElemsGo_depth d' (IH d' (by omega)) _ st1 kvs st2 hseq
            refine ⟨fun _ => ?_, fun e he => ?_, fun e he1 he2 => ?_⟩
            · have := hsA (by omega)
              simp only [containerDepth]
              omega
            · simp only [containerDepth] at he
              rcases e with _ | e'
              · omega
              · have b := hsB e' (by omega)
                simp only [deserialize_any, hm]
                rw [if_neg (show ¬ e' = 0 by omega)]
                simp only [b]
            · simp only [containerDepth] at he2
              rcases e with _ | e'
              · omega
              · simp only [deserialize_any, hm]
                by_cases he0 : e' = 0
                · subst he0
                  simp
                · rw [if_neg he0]
                  have c := hsC e' (by omega) (by omega)
                  simp only [c]
    -- Map16
    · split at h
      · simp at h
      next len st2 hlen =>
        split at h
        · simp at h
        next d' =>
          by_cases hd' : d' = 0
          · subst hd'
            simp at h
          · rw [if_neg hd'] at h
            split at h
            · simp at h
            next kvs st3 hseq =>
              simp only [Except.ok.injEq, Prod.mk.injEq] at h
              obtain ⟨rfl, rfl⟩ := h
              obtain ⟨hsA, hsB, hsC⟩ :=
                mapElemsGo_depth d' (IH d' (by omega)) len st2 kvs st3 hseq
              refine ⟨fun _ => ?_, fun e he => ?_, fun e he1 he2 => ?_⟩
              · have := hsA (by omega)
                simp only [containerDepth]
                omega
              · simp only [containerDepth] at he
                rcases e with _ | e'
                · omega
                · have b := hsB e' (by omega)
                  simp only [deserialize_any, hm, hlen]
                  rw [if_neg (show ¬ e' = 0 by omega)]
                  simp only [b]
              · simp only [containerDepth] at he2
                rcases e with _ | e'
                · omega
                · simp only [deserialize_any, hm, hlen]
                  by_cases he0 : e' = 0
                  · subst he0
                    simp
                  · rw [if_neg he0]
                    have c := hsC e' (by omega) (by omega)
                    simp only [c]
    -- Map32
    · split at h
      · simp at h
      next len st2 hlen =>
        split at h
        · simp at h
        next d' =>
          by_cases hd' : d' = 0
          · subst hd'
            simp at h
          · rw [if_neg hd'] at h
            split at h
            · simp at h
            next kvs st3 hseq =>
              simp only [Except.ok.injEq, Prod.mk.injEq] at h
              obtain ⟨rfl, rfl⟩ := h
              obtain ⟨hsA, hsB, hsC⟩ :=
                mapElemsGo_depth d' (IH d' (by omega)) len st2 kvs st3 hseq
              refine ⟨fun _ => ?_, fun e he => ?_, fun e he1 he2 => ?_⟩
              · have := hsA (by omega)
                simp only [containerDepth]
                omega
              · simp only [containerDepth] at he
                rcases e with _ | e'
                · omega
                · have b := hsB e' (by omega)
                  simp only [deserialize_any, hm, hlen]
                  rw [if_neg (show ¬ e' = 0 by omega)]
                  simp only [b]
              · simp only [containerDepth] at he2
                rcases e with _ | e'
                · omega
                · simp only [deserialize_any, hm, hlen]
                  by_cases he0 : e' = 0
                  · subst he0
                    simp
                  · rw [if_neg he0]
                    have c := hsC e' (by omega) (by omega)
                    simp only [c]
    -- the eight ext arms
    all_goals (
      split at h
      · simp at h
      next len st2 hext =>
        split at h
        · simp at h
        next d' =>
          by_cases hd' : d' = 0
          · subst hd'
            simp at h
          · rw [if_neg hd'] at h
            split at h
            · simp at h
            next tag st3 htag =>
              split at h
              · simp at h
              next r st4 hbin =>
                simp only [Except.ok.injEq, Prod.mk.injEq] at h
                obtain ⟨rfl, rfl⟩ := h
                refine ⟨fun _ => ?_, fun e he => ?_, fun e he1 he2 => ?_⟩
                · simp only [containerDepth]
                  omega
                · simp only [containerDepth] at he
                  rcases e with _ | e'
                  · omega
                  · simp only [deserialize_any, hm, hext]
                    rw [if_neg (show ¬ e' = 0 by omega)]
                    simp only [htag, hbin]
                · simp only [containerDepth] at he2
                  have he' : e = 1 := by omega
                  subst he'
                  simp only [deserialize_any, hm, hext]
                  simp)

end RmpSerde

namespace RmpSerde

/-- C2: `Deserializer::from_bytes` configures the remaining-depth counter at
its default 1024, and for every input byte stream that decodes (at some
budget) to a value `v` — whose container nesting is `containerDepth v` —
running `deserialize_any` with any positive budget at or below that nesting
(in particular, with a configured maximum strictly less than the nesting)
fails with `DepthLimitExceeded`; any budget above the nesting decodes the
same value and leaves the same state, and a successful decode's nesting is
always below its budget. The budget alone deciding the outcome is exactly
what `depth_count!`'s decrement-check-restore discipline provides. -/
theorem c2_depth_limit_exceeded :
    (∀ bytes, (Deserializer.from_bytes bytes).depth = 1024) ∧
    (∀ D st v st', deserialize_any D st = .ok (v, st') →
      (∀ d, 1 ≤ d → d ≤ containerDepth v →
        deserialize_any d st = .error .DepthLimitExceeded) ∧
      (∀ d, containerDepth v < d → deserialize_any d st = .ok (v, st')) ∧
      (1 ≤ D → containerDepth v < D)) := by
  refine ⟨fun bytes => rfl, fun D st v st' h => ?_⟩
  obtain ⟨hA, hB, hC⟩ := deserialize_any_depth D st v st' h
  exact ⟨hC, hB, hA⟩

/-- Witness for C2: `[[ ]]` (nesting 2) decodes fine with budget 3 but
fails with `DepthLimitExceeded` when the budget is 2 ≤ nesting; the default
counter out of `from_bytes` is 1024. -/
theorem c2_depth_limit_exceeded_witness :
    (Deserializer.from_bytes []).depth = 1024 ∧
    deserialize_any 2 ⟨[0x91, 0x90], none⟩ = .error .DepthLimitExceeded ∧
    deserialize_any 3 ⟨[0x91, 0x90], none⟩
      = .ok (.arrayV [.arrayV []], ⟨[], none⟩) := by
  have hd : deserialize_any 3 ⟨[0x91, 0x90], none⟩
      = .ok (.arrayV [.arrayV []], ⟨[], none⟩) := rfl
  have h2 := c2_depth_limit_exceeded.2 3 ⟨[0x91, 0x90], none⟩
    (.arrayV [.arrayV []]) ⟨[], none⟩ hd
  refine ⟨c2_depth_limit_exceeded.1 [], ?_, hd⟩
  refine h2.1 2 (by omega) ?_
  simp [containerDepth, containerDepthList]

end RmpSerde
